import Mathlib

/-!
# FLY-Eval++ : verification of the evidence-driven grading pipeline

Shallow embedding of the core of the FLY-Eval++ repository
(`fly_eval_plus_plus`): the evidence data model, the six verifiers,
the evaluator-agent adjudication, the deterministic rule adjudicator
(rubric grade assignment), the grade-to-score protocol, the MAE/RMSE
scoring curves, and the per-sample record construction of
`FLYEvalPlusPlus.evaluate_sample`.

Conventions of the embedding:
* Python floats are modelled as rationals (`ℚ`); JSON numbers coming out
  of the parser are finite, and none of the verified properties depend on
  overflow or rounding of IEEE arithmetic.  The two genuinely
  transcendental operations (`sqrt` in the ground-speed rule and
  `atan2`-in-degrees in the track rule of the cross-field checker) are
  taken as parameters of the checker, so every theorem about it holds for
  every implementation of those operations.
* Python `float(x)` is modelled by `floatOf` / `parseFloatStr`; the
  string parser covers plain signed decimal literals, which is the shape
  every branch relevant to the claims exercises (strings such as `"nan"`
  or `"inf"` make `float` succeed in Python but are then rejected by the
  `isnan`/`isinf` test, so `none` is the faithful combined outcome).
* `meta` bags and the exact `%`-formatted message texts are elided: no
  verified property depends on them, and the control-flow effect of the
  one `float()` call that happens inside a `meta` construction (rule 1 of
  the safety checker) is modelled explicitly.
* Python dictionaries of JSON objects are association lists with
  first-match lookup; a key bound to JSON `null` is Python `None`, which
  the checkers treat like an absent key wherever they use
  `is not None`-style guards (`getVal` collapses this).
-/

namespace FlyEval

/-- Severity levels of an evidence atom (`core/data_structures.py`). -/
inductive Severity where
  | critical
  | warning
  | info
deriving DecidableEq, Repr

/-- Scope of an evidence atom (`core/data_structures.py`). -/
inductive Scope where
  | field
  | sample
  | crossField
deriving DecidableEq, Repr

/-- Agent adjudication verdict (`core/data_structures.py`). -/
inductive Adjudication where
  | eligible
  | ineligible
deriving DecidableEq, Repr

/-- Rubric grades (`rubric/rubric_definition_fixed.py`). -/
inductive Grade where
  | A
  | B
  | C
  | D
deriving DecidableEq, Repr

/-- A parsed JSON value as it reaches the verifiers: scalars, strings,
booleans, `null`, or arrays (multi-step tasks).  Nested objects never
reach the field level and are not needed. -/
inductive JsonVal where
  | null
  | bool (b : Bool)
  | num (q : ℚ)
  | str (s : String)
  | arr (xs : List JsonVal)

/-- Python `value == ""` on a JSON value. -/
def JsonVal.isEmptyStr : JsonVal → Bool
  | JsonVal.str s => s = ""
  | _ => false

/-- Pattern test for JSON `null` (Python `value is None`). -/
def JsonVal.isNull : JsonVal → Bool
  | JsonVal.null => true
  | _ => false

/-- A parsed field map: association list from field names to JSON
values, first match wins (Python dict keys are unique). -/
abbrev FieldMap := List (String × JsonVal)

/-- Dictionary lookup, `json_data.get(field)` except that an explicit
JSON `null` is still reported as present (Python `field in json_data`). -/
def lookupF (m : FieldMap) (k : String) : Option JsonVal :=
  match m with
  | [] => none
  | (k', v) :: rest => if k' = k then some v else lookupF rest k

/-- `json_data.get(field)` as used behind an `is not None` guard: an
explicit JSON `null` is Python `None` and behaves like an absent key. -/
def getVal (m : FieldMap) (k : String) : Option JsonVal :=
  match lookupF m k with
  | some JsonVal.null => none
  | r => r

/-- Replace the binding of `k` (or append it): Python `d[k] = v`. -/
def setKey (m : FieldMap) (k : String) (v : JsonVal) : FieldMap :=
  match m with
  | [] => [(k, v)]
  | (k', v') :: rest => if k' = k then (k, v) :: rest else (k', v') :: setKey rest k v

/-- Parse an unsigned run of decimal digits. -/
def parseDigits : List Char → Option ℕ
  | [] => none
  | cs => cs.foldl (fun acc c =>
      match acc with
      | none => none
      | some n => if c.isDigit then some (10 * n + (c.toNat - 48)) else none)
      (some 0)

/-- Parse an unsigned decimal literal `digits[.digits]` into a rational. -/
def parseFloatUnsigned (cs : List Char) : Option ℚ :=
  match cs.splitOn '.' with
  | [intPart] =>
      match parseDigits intPart with
      | some n => some (n : ℚ)
      | none => none
  | [intPart, fracPart] =>
      match parseDigits intPart, parseDigits fracPart with
      | some n, some f => some ((n : ℚ) + (f : ℚ) / ((10 : ℚ) ^ fracPart.length))
      | _, _ => none
  | _ => none

/-- Model of Python `float(s)` on strings, restricted to plain signed
decimal literals.  Strings like `"nan"`/`"inf"` convert in Python but are
immediately rejected by the `isnan`/`isinf` test of the caller, so
returning `none` is the faithful combined behaviour. -/
def parseFloatStr (s : String) : Option ℚ :=
  match s.data with
  | [] => none
  | '-' :: rest => (parseFloatUnsigned rest).map (fun q => -q)
  | '+' :: rest => parseFloatUnsigned rest
  | cs => parseFloatUnsigned cs

/-- Model of Python `float(value)` on a JSON value: `None` and lists
raise `TypeError`, booleans convert to `1.0`/`0.0`, numbers are already
finite reals, strings go through the literal parser. -/
def floatOf : JsonVal → Option ℚ
  | JsonVal.null => none
  | JsonVal.bool b => some (if b then 1 else 0)
  | JsonVal.num q => some q
  | JsonVal.str s => parseFloatStr s
  | JsonVal.arr _ => none

/-- `NumericValidityChecker.is_valid_numeric_value`: rejects `None`, the
literal junk strings, anything `float()` cannot turn into a finite real. -/
def isValidNumericValue (v : JsonVal) : Bool :=
  match v with
  | JsonVal.null => false
  | JsonVal.str s =>
      let t := s.trim
      if t = "" ∨ ["null", "none", "nan", "n/a", "undefined"].contains t.toLower then
        false
      else
        (parseFloatStr t).isSome
  | v => (floatOf v).isSome

/-- An evidence atom (`core/data_structures.py`), without the `meta`
bag, whose content no verified property mentions. -/
structure EvidenceAtom where
  id : String
  type : String
  field : Option String
  pass : Bool
  severity : Severity
  scope : Scope
  message : String
  score : Option ℚ := none
deriving DecidableEq, Repr

/-- Zero-padding to four digits, Python `f"{n:04d}"` for the counters in
play. -/
def pad4 (n : ℕ) : String :=
  if n < 10 then "000" ++ toString n
  else if n < 100 then "00" ++ toString n
  else if n < 1000 then "0" ++ toString n
  else toString n

/-- `Verifier._generate_evidence_id`: `EVID_<verifier_id>_<counter:04d>`. -/
def mkEvidenceId (vid : String) (n : ℕ) : String :=
  "EVID_" ++ vid ++ "_" ++ pad4 n

/-- The Python checkers call `_generate_evidence_id()` once per emitted
atom, in emission order, incrementing the instance counter; assigning
the ids positionally after the fact is the same computation. -/
def assignIdsFrom (vid : String) : ℕ → List EvidenceAtom → List EvidenceAtom
  | _, [] => []
  | c, a :: rest => { a with id := mkEvidenceId vid (c + 1) } :: assignIdsFrom vid (c + 1) rest

end FlyEval

namespace FlyEval

/-! ## Numeric-Validity checker (`verifiers/numeric_validity_checker.py`)

The default configuration enables all four checks
(`check_nan/check_inf/check_type/check_missing` are `True`). -/

/-- Critical atom for a missing required field. -/
def numericMissingAtom (field : String) : EvidenceAtom :=
  { id := "", type := "numeric_validity", field := some field, pass := false,
    severity := Severity.critical, scope := Scope.field,
    message := "Field " ++ field ++ " is missing" }

/-- Atom for one present value (scalar, or one array element with its
indexed label): failing-critical when not a finite real, passing-info
otherwise. -/
def numericValueAtom (label : String) (v : JsonVal) : EvidenceAtom :=
  if isValidNumericValue v then
    { id := "", type := "numeric_validity", field := some label, pass := true,
      severity := Severity.info, scope := Scope.field,
      message := "Field " ++ label ++ " has valid numeric value" }
  else
    { id := "", type := "numeric_validity", field := some label, pass := false,
      severity := Severity.critical, scope := Scope.field,
      message := "Field " ++ label ++ " has invalid numeric value" }

/-- One atom per array element, labels `field[i]`. -/
def numericArrAtoms (field : String) : ℕ → List JsonVal → List EvidenceAtom
  | _, [] => []
  | i, v :: rest =>
      numericValueAtom (field ++ "[" ++ toString i ++ "]") v :: numericArrAtoms field (i + 1) rest

/-- Atoms emitted for one required field. -/
def numericFieldAtoms (field : String) (v? : Option JsonVal) : List EvidenceAtom :=
  match v? with
  | none => [numericMissingAtom field]
  | some (JsonVal.arr xs) => numericArrAtoms field 0 xs
  | some v => [numericValueAtom field v]

/-- `NumericValidityChecker.verify` (ids assigned separately). -/
def numericVerify (json : Option FieldMap) (required : List String) : List EvidenceAtom :=
  match json with
  | none => []
  | some m => required.bind (fun f => numericFieldAtoms f (lookupF m f))

/-! ## Range-Sanity checker (`verifiers/range_sanity_checker.py`) -/

/-- Element loop of `check_range_validity` for array values: empty
elements are skipped, conversion failures and out-of-range values make
the whole field invalid. -/
def rangeListOk (lo hi : ℚ) : List JsonVal → Bool
  | [] => true
  | v :: rest =>
      if v.isNull || v.isEmptyStr then rangeListOk lo hi rest
      else
        match floatOf v with
        | none => false
        | some q => if q < lo ∨ hi < q then false else rangeListOk lo hi rest

/-- `RangeSanityChecker.check_range_validity` (validity only; the
message is only used as atom text). -/
def checkRangeValidity (limits : String → Option (ℚ × ℚ)) (field : String) (v : JsonVal) : Bool :=
  match limits field with
  | none => true
  | some (lo, hi) =>
      if v.isNull || v.isEmptyStr then true
      else
        match v with
        | JsonVal.arr xs => rangeListOk lo hi xs
        | v =>
            match floatOf v with
            | none => false
            | some q => !(q < lo ∨ hi < q : Bool)

/-- Severity of a failing range atom: normalized deviation from the
nearest bound, `> 0.5` critical, else warning; conversion failure keeps
the initial critical. For arrays the deviation is computed from the
first element (`float(value[0]) if value else 0`). -/
def rangeFailSeverity (limits : String → Option (ℚ × ℚ)) (field : String) (v : JsonVal) : Severity :=
  match limits field with
  | none => Severity.critical
  | some (lo, hi) =>
      let num? : Option ℚ :=
        match v with
        | JsonVal.arr [] => some 0
        | JsonVal.arr (x :: _) => floatOf x
        | v => floatOf v
      match num? with
      | none => Severity.critical
      | some q =>
          let width := hi - lo
          let dev : ℚ :=
            if q < lo then (if 0 < width then abs (q - lo) / width else 1)
            else if hi < q then (if 0 < width then abs (q - hi) / width else 1)
            else 0
          if (1 : ℚ) / 2 < dev then Severity.critical
          else if (1 : ℚ) / 5 < dev then Severity.warning
          else Severity.warning

/-- Atoms emitted by the range checker for one required field (absent
fields are left to the numeric checker). -/
def rangeFieldAtoms (limits : String → Option (ℚ × ℚ)) (field : String) :
    Option JsonVal → List EvidenceAtom
  | none => []
  | some v =>
      if checkRangeValidity limits field v then
        [{ id := "", type := "range_sanity", field := some field, pass := true,
           severity := Severity.info, scope := Scope.field,
           message := "Field " ++ field ++ " within valid range" }]
      else
        [{ id := "", type := "range_sanity", field := some field, pass := false,
           severity := rangeFailSeverity limits field v, scope := Scope.field,
           message := "Field " ++ field ++ " out of valid range" }]

/-- `RangeSanityChecker.verify`: one atom per present required field. -/
def rangeVerify (limits : String → Option (ℚ × ℚ)) (json : Option FieldMap)
    (required : List String) : List EvidenceAtom :=
  match json with
  | none => []
  | some m => required.bind fun field => rangeFieldAtoms limits field (lookupF m field)

end FlyEval

namespace FlyEval

/-! ## Jump-Dynamics checker (`verifiers/jump_dynamics_checker.py`) -/

/-- `JumpDynamicsChecker.angle_difference`: absolute difference with
0/360 wrap-around. -/
def angleDifference (pred actual : ℚ) : ℚ :=
  let diff := abs (pred - actual)
  if 180 < diff then 360 - diff else diff

/-- Step change between two consecutive values: circular difference for
angle fields, plain absolute difference otherwise. -/
def stepChange (angle : Bool) (prev curr : ℚ) : ℚ :=
  if angle then angleDifference curr prev else abs (curr - prev)

/-- M3 branch of `check_mutation`: walk the adjacent pairs of the array,
skipping pairs with a non-convertible end, returning at the FIRST change
exceeding the threshold (with that change), else `(true, max change)`. -/
def m3MutLoop (angle : Bool) (threshold : ℚ) : List JsonVal → ℚ → Bool × ℚ
  | [], maxC => (true, maxC)
  | [_], maxC => (true, maxC)
  | x :: y :: rest, maxC =>
      match floatOf x, floatOf y with
      | some p, some c =>
          let change := stepChange angle p c
          let maxC' := max maxC change
          if threshold < change then (false, change)
          else m3MutLoop angle threshold (y :: rest) maxC'
      | _, _ => m3MutLoop angle threshold (y :: rest) maxC

/-- `JumpDynamicsChecker.check_mutation`, returning `(is_valid, change)`
(the message is reconstructed by the caller).  `previous` is already
collapsed through the `previous_predictions` map (`None` for absent). -/
def checkMutation (thresholds : String → Option ℚ) (angleFields : List String)
    (field : String) (previous : Option JsonVal) (current : JsonVal)
    (taskType : String) : Bool × ℚ :=
  match thresholds field with
  | none => (true, 0)
  | some threshold =>
      if previous.isNone || current.isNull then (true, 0)
      else if (previous.getD JsonVal.null).isEmptyStr || current.isEmptyStr then (true, 0)
      else
        let angle := angleFields.contains field
        match taskType, current with
        | "M3", JsonVal.arr xs =>
            if 1 < xs.length then m3MutLoop angle threshold xs 0
            else singleStep angle threshold previous (JsonVal.arr xs)
        | _, current => singleStep angle threshold previous current
where
  /-- S1/M1 branch: previous value (last element if the previous
  prediction was an array), compared to the current scalar. -/
  singleStep (angle : Bool) (threshold : ℚ) (previous : Option JsonVal)
      (current : JsonVal) : Bool × ℚ :=
    let prevF? : Option ℚ :=
      match previous with
      | some (JsonVal.arr (x :: xs)) => floatOf ((x :: xs).getLast (by simp))
      | some (JsonVal.arr []) => none
      | some v => floatOf v
      | none => none
    match prevF? with
    | none => (true, 0)
    | some p =>
        match floatOf current with
        | none => (true, 0)
        | some c =>
            let change := stepChange angle p c
            if threshold < change then (false, change) else (true, change)

/-- Severity of a failing jump atom: ratio of the reported change to the
threshold, `> 2.0` critical, otherwise warning (the `> 1.5` branch of
the source is also warning). -/
def jumpFailSeverity (threshold maxChange : ℚ) : Severity :=
  if 0 < threshold then
    let ratio := if 0 < maxChange then maxChange / threshold else 0
    if 2 < ratio then Severity.critical
    else if (3 : ℚ) / 2 < ratio then Severity.warning
    else Severity.warning
  else Severity.warning

/-- Atoms emitted by the jump checker for one required field. -/
def jumpFieldAtoms (thresholds : String → Option ℚ) (angleFields : List String)
    (field : String) (prevPred : FieldMap) (taskType : String) :
    Option JsonVal → List EvidenceAtom
  | none => []
  | some current =>
      let previous := getVal prevPred field
      if previous.isNone && taskType ≠ "M3" then []
      else
        let r := checkMutation thresholds angleFields field previous current taskType
        if r.1 then
          if previous.isSome || taskType = "M3" then
            [{ id := "", type := "jump_dynamics", field := some field, pass := true,
               severity := Severity.info, scope := Scope.field,
               message := "Field " ++ field ++ " mutation check passed" }]
          else []
        else
          [{ id := "", type := "jump_dynamics", field := some field, pass := false,
             severity := jumpFailSeverity ((thresholds field).getD 0) r.2,
             scope := Scope.field,
             message := "Field " ++ field ++ " mutation too large" }]

/-- `JumpDynamicsChecker.verify`. -/
def jumpVerify (thresholds : String → Option ℚ) (angleFields : List String)
    (json : Option FieldMap) (required : List String) (prevPred : FieldMap)
    (taskType : String) : List EvidenceAtom :=
  match json with
  | none => []
  | some m =>
      required.bind fun field =>
        jumpFieldAtoms thresholds angleFields field prevPred taskType (lookupF m field)

end FlyEval

namespace FlyEval

/-! ## Cross-Field-Consistency checker
(`verifiers/cross_field_consistency_checker.py`)

The checker is enabled by the graph builder (`enabled = True`). Float
`sqrt` and `degrees(atan2(·,·))` are parameters of the embedding. -/

/-- `_normalize_to_list`: a list stays, a scalar becomes a singleton
(`None` cannot occur here — it is filtered by the caller's guard). -/
def normalizeToList : JsonVal → List JsonVal
  | JsonVal.arr xs => xs
  | v => [v]

/-- Zip of three lists (Python `zip`, truncating to the shortest). -/
def zip3L : List α → List β → List γ → List (α × β × γ)
  | a :: as', b :: bs, c :: cs => (a, b, c) :: zip3L as' bs cs
  | _, _, _ => []

/-- Altitude-parity thresholds: `> 3000` critical-fail, `> 2000`
warning-fail, else pass-info.  Returns `(severity, pass)`. -/
def altParity (diff : ℚ) : Severity × Bool :=
  if 3000 < diff then (Severity.critical, false)
  else if 2000 < diff then (Severity.warning, false)
  else (Severity.info, true)

/-- Speed-parity thresholds (kt): `> 15` critical, `> 5` warning. -/
def speedParity (diff : ℚ) : Severity × Bool :=
  if 15 < diff then (Severity.critical, false)
  else if 5 < diff then (Severity.warning, false)
  else (Severity.info, true)

/-- Track-parity thresholds (deg): `> 30` critical, `> 10` warning. -/
def trackParity (diff : ℚ) : Severity × Bool :=
  if 30 < diff then (Severity.critical, false)
  else if 10 < diff then (Severity.warning, false)
  else (Severity.info, true)

/-- A cross-field atom from a `(severity, pass)` pair. -/
def crossAtom (rule : String) (sp : Severity × Bool) : EvidenceAtom :=
  { id := "", type := "cross_field_consistency", field := some rule, pass := sp.2,
    severity := sp.1, scope := Scope.crossField, message := rule ++ " check" }

/-- Rule 1 loop: per-timestep altitude difference; atoms are emitted on
every failure and on the first timestep; a float-conversion failure
raises and aborts the rest of the rule (atoms already emitted stay). -/
def altLoop : List (JsonVal × JsonVal) → ℕ → List EvidenceAtom
  | [], _ => []
  | (g, b) :: rest, idx =>
      match floatOf g, floatOf b with
      | some gf, some bf =>
          let diff := abs (gf - bf)
          let sp := altParity diff
          (if sp.2 = false ∨ idx = 0 then [crossAtom "GPS_Alt_vs_Baro_Alt" sp] else [])
            ++ altLoop rest (idx + 1)
      | _, _ => []

/-- Rule 2 loop: ground speed against `sqrt((Ve·1.944)² + (Vn·1.944)²)`. -/
def speedLoop (sqrtFn : ℚ → ℚ) : List (JsonVal × JsonVal × JsonVal) → ℕ → List EvidenceAtom
  | [], _ => []
  | (gs, ve, vn) :: rest, idx =>
      match floatOf gs, floatOf ve, floatOf vn with
      | some gsf, some vef, some vnf =>
          let veKt := vef * (1944 / 1000 : ℚ)
          let vnKt := vnf * (1944 / 1000 : ℚ)
          let calculatedGs := sqrtFn (veKt ^ 2 + vnKt ^ 2)
          let diff := abs (gsf - calculatedGs)
          let sp := speedParity diff
          (if sp.2 = false ∨ idx = 0 then [crossAtom "Ground_Speed_vs_Velocity" sp] else [])
            ++ speedLoop sqrtFn rest (idx + 1)
      | _, _, _ => []

/-- Rule 3 loop: reported track against `degrees(atan2(Ve, Vn))`
normalized into `[0, 360)`, compared circularly. -/
def trackLoop (atanDeg : ℚ → ℚ → ℚ) : List (JsonVal × JsonVal × JsonVal) → ℕ → List EvidenceAtom
  | [], _ => []
  | (tr, ve, vn) :: rest, idx =>
      match floatOf tr, floatOf ve, floatOf vn with
      | some trf, some vef, some vnf =>
          let calc0 := atanDeg vef vnf
          let calculatedTrack := if calc0 < 0 then calc0 + 360 else calc0
          let diff0 := abs (trf - calculatedTrack)
          let diff := if 180 < diff0 then 360 - diff0 else diff0
          let sp := trackParity diff
          (if sp.2 = false ∨ idx = 0 then [crossAtom "Track_vs_Velocity_Direction" sp] else [])
            ++ trackLoop atanDeg rest (idx + 1)
      | _, _, _ => []

/-- `CrossFieldConsistencyChecker.verify`: the three parity rules, each
skipped when one of its inputs is absent (or JSON `null`). -/
def crossFieldVerify (sqrtFn : ℚ → ℚ) (atanDeg : ℚ → ℚ → ℚ)
    (json : Option FieldMap) : List EvidenceAtom :=
  match json with
  | none => []
  | some m =>
      let rule1 :=
        match getVal m "GPS Altitude (WGS84 ft)", getVal m "Baro Altitude (ft)" with
        | some gpsAlt, some baroAlt =>
            altLoop ((normalizeToList gpsAlt).zip (normalizeToList baroAlt)) 0
        | _, _ => []
      let rule2 :=
        match getVal m "GPS Ground Speed (kt)", getVal m "GPS Velocity E (m/s)",
            getVal m "GPS Velocity N (m/s)" with
        | some gs, some ve, some vn =>
            speedLoop sqrtFn (zip3L (normalizeToList gs) (normalizeToList ve) (normalizeToList vn)) 0
        | _, _, _ => []
      let rule3 :=
        match getVal m "GPS Ground Track (deg true)", getVal m "GPS Velocity E (m/s)",
            getVal m "GPS Velocity N (m/s)" with
        | some tr, some ve, some vn =>
            trackLoop atanDeg (zip3L (normalizeToList tr) (normalizeToList ve) (normalizeToList vn)) 0
        | _, _, _ => []
      rule1 ++ rule2 ++ rule3

end FlyEval

namespace FlyEval

/-! ## Physics-Constraint checker (`verifiers/physics_constraint_checker.py`)

Enabled by the graph builder.  The default config leaves
`m3_continuity_thresholds` empty, so the per-field continuity threshold
is twice the jump threshold (or `inf`, i.e. no threshold, when the field
has none); both tables are parameters here. -/

/-- Effective M3 continuity threshold for a field: explicit rule value,
else `2 × jump_threshold` when the jump threshold is positive, else
infinity (`none`). -/
def m3Threshold (m3Thr jumpThr : String → Option ℚ) (field : String) : Option ℚ :=
  match m3Thr field with
  | some t => some t
  | none =>
      match jumpThr field with
      | some base => if 0 < base then some (base * 2) else none
      | none => none

/-- Adjacent-step changes of an array that exceed the continuity
threshold; pairs with a non-convertible end are skipped (`continue`). -/
def contViolations (thr? : Option ℚ) : List JsonVal → List ℚ
  | [] => []
  | [_] => []
  | x :: y :: rest =>
      match floatOf x, floatOf y with
      | some p, some c =>
          let change := abs (c - p)
          (match thr? with
           | some t => if t < change then [change] else []
           | none => []) ++ contViolations thr? (y :: rest)
      | _, _ => contViolations thr? (y :: rest)

/-- Maximum of a nonempty list (Python `max`). -/
def listMax (q : ℚ) : List ℚ → ℚ
  | [] => q
  | x :: rest => listMax (max q x) rest

/-- Rule 1 atoms for one required field (M3 only): fail when any
continuity violation exists — critical if the maximal violating change
exceeds `1.5 ×` threshold — otherwise a passing atom; fields that are
not arrays of length ≥ 2 are skipped. -/
def physContFieldAtoms (m3Thr jumpThr : String → Option ℚ) (m : FieldMap)
    (field : String) : List EvidenceAtom :=
  match lookupF m field with
  | none => []
  | some (JsonVal.arr xs) =>
      if xs.length < 2 then []
      else
        let thr? := m3Threshold m3Thr jumpThr field
        match contViolations thr? xs with
        | [] =>
            [{ id := "", type := "physics_constraint", field := some (field ++ "_continuity"),
               pass := true, severity := Severity.info, scope := Scope.field,
               message := "Field " ++ field ++ " M3 array continuity check passed" }]
        | v :: vs =>
            let maxChange := listMax v vs
            let sev :=
              match thr? with
              | some t => if t * (3 / 2 : ℚ) < maxChange then Severity.critical else Severity.warning
              | none => Severity.warning
            [{ id := "", type := "physics_constraint", field := some (field ++ "_continuity"),
               pass := false, severity := sev, scope := Scope.field,
               message := "Field " ++ field ++ " has continuity violations in M3 array" }]
  | some _ => []

/-- Rule 2 loop: per-timestep vertical-speed magnitude limit, 2000 fpm
below 1000 ft else 5000 fpm; exceedance is a warning; a conversion
failure aborts the rest of the rule. -/
def velAltLoop : List (JsonVal × JsonVal) → ℕ → List EvidenceAtom
  | [], _ => []
  | (alt, vs) :: rest, idx =>
      match floatOf alt, floatOf vs with
      | some altF, some vsF =>
          let maxVs : ℚ := if altF < 1000 then 2000 else 5000
          let fail := maxVs < abs vsF
          let sp : Severity × Bool := if fail then (Severity.warning, false) else (Severity.info, true)
          (if sp.2 = false ∨ idx = 0 then
              [{ id := "", type := "physics_constraint",
                 field := some "Velocity_Altitude_Consistency", pass := sp.2,
                 severity := sp.1, scope := Scope.crossField,
                 message := "vertical speed vs altitude check" }]
            else []) ++ velAltLoop rest (idx + 1)
      | _, _ => []

/-- Rule 3 loop: attitude sanity — `|roll| > 60 ∨ |pitch| > 60` is a
critical failure; else `|pitch| > 15` with `|Vu|` below 30% of the
expected `|pitch|/30·5` is a warning; else pass. -/
def attitudeLoop : List (JsonVal × JsonVal × JsonVal) → ℕ → List EvidenceAtom
  | [], _ => []
  | (roll, pitch, vu) :: rest, idx =>
      match floatOf roll, floatOf pitch, floatOf vu with
      | some rollF, some pitchF, some vuF =>
          let sp : Severity × Bool :=
            if 60 < abs rollF ∨ 60 < abs pitchF then (Severity.critical, false)
            else if 15 < abs pitchF then
              let vuExpected := abs pitchF / 30 * 5
              if abs vuF < vuExpected * (3 / 10 : ℚ) then (Severity.warning, false)
              else (Severity.info, true)
            else (Severity.info, true)
          (if sp.2 = false ∨ idx = 0 then
              [{ id := "", type := "physics_constraint",
                 field := some "Attitude_Velocity_Consistency", pass := sp.2,
                 severity := sp.1, scope := Scope.crossField,
                 message := "attitude vs vertical velocity check" }]
            else []) ++ attitudeLoop rest (idx + 1)
      | _, _, _ => []

/-- `PhysicsConstraintChecker.verify`. -/
def physicsVerify (m3Thr jumpThr : String → Option ℚ) (json : Option FieldMap)
    (required : List String) (taskType : String) : List EvidenceAtom :=
  match json with
  | none => []
  | some m =>
      let rule1 :=
        if taskType = "M3" then
          required.bind (fun field => physContFieldAtoms m3Thr jumpThr m field)
        else []
      let rule2 :=
        match getVal m "GPS Altitude (WGS84 ft)", getVal m "Vertical Speed (fpm)" with
        | some alt, some vs => velAltLoop ((normalizeToList alt).zip (normalizeToList vs)) 0
        | _, _ => []
      let rule3 :=
        match getVal m "Roll (deg)", getVal m "Pitch (deg)", getVal m "GPS Velocity U (m/s)" with
        | some roll, some pitch, some vu =>
            attitudeLoop (zip3L (normalizeToList roll) (normalizeToList pitch) (normalizeToList vu)) 0
        | _, _, _ => []
      rule1 ++ rule2 ++ rule3

end FlyEval

namespace FlyEval

/-! ## Safety-Constraint checker (`verifiers/safety_constraint_checker_old.py`)

Enabled by the graph builder.  All four rules emit atoms only on
failure; there are no passing safety atoms. -/

/-- Rapid-descent loop: `< -3000` fpm critical, `< -2000` warning.  The
critical atom's meta calls `float(alt_val)` when the parallel altitude
value is present; if that conversion raises, the atom is not emitted and
the rest of the rule is aborted.  A failing `float(vs_val)` aborts as
well. -/
def rapidDescentLoop : List (JsonVal × Option JsonVal) → List EvidenceAtom
  | [] => []
  | (vs, alt?) :: rest =>
      match floatOf vs with
      | none => []
      | some vsF =>
          if vsF < -3000 then
            let altOk : Bool :=
              match alt? with
              | none => true
              | some a => (floatOf a).isSome
            if altOk then
              { id := "", type := "safety_constraint", field := some "Rapid_Descent",
                pass := false, severity := Severity.critical, scope := Scope.sample,
                message := "Rapid descent detected" } :: rapidDescentLoop rest
            else []
          else if vsF < -2000 then
            { id := "", type := "safety_constraint", field := some "Rapid_Descent",
              pass := false, severity := Severity.warning, scope := Scope.sample,
              message := "High descent rate" } :: rapidDescentLoop rest
          else rapidDescentLoop rest

/-- Extreme-airspeed loop: `< 30` kt critical (stall risk), `> 180` kt
warning (overspeed). -/
def extremeSpeedLoop : List JsonVal → List EvidenceAtom
  | [] => []
  | ias :: rest =>
      match floatOf ias with
      | none => []
      | some iasF =>
          if iasF < 30 then
            { id := "", type := "safety_constraint", field := some "Extreme_Speed",
              pass := false, severity := Severity.critical, scope := Scope.field,
              message := "Extremely low airspeed" } :: extremeSpeedLoop rest
          else if 180 < iasF then
            { id := "", type := "safety_constraint", field := some "Extreme_Speed",
              pass := false, severity := Severity.warning, scope := Scope.field,
              message := "Extremely high airspeed" } :: extremeSpeedLoop rest
          else extremeSpeedLoop rest

/-- Extreme-altitude loop: `< 0` ft critical, `> 15000` ft warning. -/
def extremeAltLoop : List JsonVal → List EvidenceAtom
  | [] => []
  | alt :: rest =>
      match floatOf alt with
      | none => []
      | some altF =>
          if altF < 0 then
            { id := "", type := "safety_constraint", field := some "Extreme_Altitude",
              pass := false, severity := Severity.critical, scope := Scope.field,
              message := "Negative altitude" } :: extremeAltLoop rest
          else if 15000 < altF then
            { id := "", type := "safety_constraint", field := some "Extreme_Altitude",
              pass := false, severity := Severity.warning, scope := Scope.field,
              message := "Extremely high altitude" } :: extremeAltLoop rest
          else extremeAltLoop rest

/-- Stall-composite loop: `IAS < 50 ∧ pitch > 15 ∧ VS < 500` critical. -/
def stallLoop : List (JsonVal × JsonVal × JsonVal) → List EvidenceAtom
  | [] => []
  | (ias, pitch, vs) :: rest =>
      match floatOf ias, floatOf pitch, floatOf vs with
      | some iasF, some pitchF, some vsF =>
          if iasF < 50 ∧ 15 < pitchF ∧ vsF < 500 then
            { id := "", type := "safety_constraint", field := some "Stall_Condition",
              pass := false, severity := Severity.critical, scope := Scope.sample,
              message := "Stall-like condition" } :: stallLoop rest
          else stallLoop rest
      | _, _, _ => []

/-- `SafetyConstraintChecker.verify` (the `_old` variant wired into the
pipeline). -/
def safetyVerify (json : Option FieldMap) : List EvidenceAtom :=
  match json with
  | none => []
  | some m =>
      let vs? := getVal m "Vertical Speed (fpm)"
      let alt? := getVal m "GPS Altitude (WGS84 ft)"
      let ias? := getVal m "Indicated Airspeed (kt)"
      let pitch? := getVal m "Pitch (deg)"
      let rule1 :=
        match vs? with
        | none => []
        | some vs =>
            let vsVals := normalizeToList vs
            let altVals : List (Option JsonVal) :=
              match alt? with
              | none => List.replicate vsVals.length none
              | some alt =>
                  (normalizeToList alt).map fun v =>
                    match v with
                    | JsonVal.null => none
                    | v => some v
            rapidDescentLoop (vsVals.zip altVals)
      let rule2a :=
        match ias? with
        | none => []
        | some ias => extremeSpeedLoop (normalizeToList ias)
      let rule2b :=
        match alt? with
        | none => []
        | some alt => extremeAltLoop (normalizeToList alt)
      let rule3 :=
        match ias?, pitch?, vs? with
        | some ias, some pitch, some vs =>
            stallLoop (zip3L (normalizeToList ias) (normalizeToList pitch) (normalizeToList vs))
        | _, _, _ => []
      rule1 ++ rule2a ++ rule2b ++ rule3

end FlyEval

namespace FlyEval

/-! ## Evaluator-agent adjudication (`agents/evaluator_agent.py`) -/

/-- `EvaluatorAgent.adjudicate`: the verdict is `ineligible` exactly when
a critical failing atom or a failing `numeric_validity` atom exists. -/
def adjudicate (atoms : List EvidenceAtom) : Adjudication :=
  let criticalFailures := atoms.filter fun a => a.severity = Severity.critical ∧ a.pass = false
  let protocolFailures := atoms.filter fun a => a.type = "numeric_validity" ∧ a.pass = false
  if !criticalFailures.isEmpty || !protocolFailures.isEmpty then Adjudication.ineligible
  else Adjudication.eligible

/-- `RuleBasedFusion.gate` / `RuleBasedFusionAligned.gate`: gating fails
exactly when a critical failing atom exists. -/
def gatePassed (atoms : List EvidenceAtom) : Bool :=
  (atoms.filter fun a => a.severity = Severity.critical ∧ a.pass = false).isEmpty

/-! ## Evidence counting and the deterministic rule adjudicator
(`fusion/rule_based_fusion_aligned.py`, `rubric/rubric_definition_fixed.py`) -/

/-- Pass/fail counts of one evidence type
(`RuleBasedFusionAligned._count_evidence_by_type`). -/
structure TypeCounts where
  passCount : ℕ
  failCount : ℕ
deriving DecidableEq, Repr

/-- Count the atoms of one type. -/
def countsOf (atoms : List EvidenceAtom) (ty : String) : TypeCounts :=
  { passCount := (atoms.filter fun a => a.type = ty ∧ a.pass = true).length,
    failCount := (atoms.filter fun a => a.type = ty ∧ a.pass = false).length }

/-- The ratio requirement of the rubric: when atoms of the type exist,
`fail/(pass+fail)` must not exceed the grade's bound. -/
def ratioOk (c : TypeCounts) (maxRate : ℚ) : Bool :=
  let total := c.passCount + c.failCount
  if 0 < total then !(maxRate < (c.failCount : ℚ) / (total : ℚ)) else true

/-- Protocol-Schema requirements from `RUBRIC`: numeric-validity failure
bound, required `parsing.success`, required `field_completeness.rate`. -/
def protocolReq : Grade → ℚ × Bool × ℚ
  | Grade.A => (0, true, 1)
  | Grade.B => (1 / 20, true, 1)
  | Grade.C => (3 / 20, true, 9 / 10)
  | Grade.D => (1, false, 4 / 5)

/-- One grade row of the Protocol-Schema dimension check of
`_determine_grade`: the completeness requirement compares the record's
`completeness_rate` (a percentage in `[0,100]`) with the rubric's
fractional rate, exactly as the source does. -/
def protocolMatches (g : Grade) (nc : TypeCounts) (parsingSuccess : Bool)
    (completenessRate : ℚ) : Bool :=
  let (maxRate, parseReq, rateReq) := protocolReq g
  ratioOk nc maxRate && (parseReq == parsingSuccess) && !(completenessRate < rateReq)

/-- Grade loop A→D of `_determine_grade` for Protocol-Schema, with the
default `Grade.D` when nothing matches. -/
def determineGradeProtocol (nc : TypeCounts) (parsingSuccess : Bool)
    (completenessRate : ℚ) : Grade :=
  if protocolMatches Grade.A nc parsingSuccess completenessRate then Grade.A
  else if protocolMatches Grade.B nc parsingSuccess completenessRate then Grade.B
  else if protocolMatches Grade.C nc parsingSuccess completenessRate then Grade.C
  else if protocolMatches Grade.D nc parsingSuccess completenessRate then Grade.D
  else Grade.D

/-- Safety-Constraint failure-rate bounds from `RUBRIC`. -/
def safetyMaxRate : Grade → ℚ
  | Grade.A => 0
  | Grade.B => 1 / 10
  | Grade.C => 1 / 4
  | Grade.D => 1

/-- Grade loop A→D of `_determine_grade` for Safety-Constraint. -/
def determineGradeSafety (sc : TypeCounts) : Grade :=
  if ratioOk sc (safetyMaxRate Grade.A) then Grade.A
  else if ratioOk sc (safetyMaxRate Grade.B) then Grade.B
  else if ratioOk sc (safetyMaxRate Grade.C) then Grade.C
  else if ratioOk sc (safetyMaxRate Grade.D) then Grade.D
  else Grade.D

/-! ## Grade→score protocol and overall aggregation -/

/-- `GRADE_SCORE_MAP` of `rubric_definition_fixed.py`. -/
def gradeScore : Grade → ℚ
  | Grade.A => 1
  | Grade.B => 3 / 4
  | Grade.C => 1 / 2
  | Grade.D => 0

/-- `sum(dimension_scores.values()) / len(dimension_scores)` of
`RuleBasedFusionAligned.calculate_scores` (empty guard included). -/
def overallScore (dimensionScores : List ℚ) : ℚ :=
  if dimensionScores.isEmpty then 0
  else dimensionScores.sum / (dimensionScores.length : ℚ)

/-- The five dimension scores of `calculate_scores`: four graded
dimensions and the directly-computed predictive-quality score. -/
def dimensionScoreList (protocol fieldValidity physics safety : Grade)
    (predictiveQuality : ℚ) : List ℚ :=
  [gradeScore protocol, gradeScore fieldValidity, gradeScore physics,
   gradeScore safety, predictiveQuality]

/-! ## MAE/RMSE scoring curves
(`RuleBasedFusionAligned._mae_to_score` / `_rmse_to_score`; the
`RuleBasedFusion` copies are identical). -/

/-- `_mae_to_score`, as written in the source. -/
def maeToScore (mae : ℚ) : ℚ :=
  if mae < 5 then 100 - mae / 5 * 10
  else if mae < 20 then 90 - (mae - 5) / 15 * 20
  else if mae < 50 then 70 - (mae - 20) / 30 * 20
  else if mae < 100 then 50 - (mae - 50) / 50 * 20
  else if mae < 200 then 30 - (mae - 100) / 100 * 15
  else max 5 (15 - (mae - 200) / 100 * 10)

/-- `_rmse_to_score`, as written in the source. -/
def rmseToScore (rmse : ℚ) : ℚ :=
  if rmse < 10 then 100 - rmse / 10 * 10
  else if rmse < 50 then 90 - (rmse - 10) / 40 * 20
  else if rmse < 100 then 70 - (rmse - 50) / 50 * 20
  else if rmse < 200 then 50 - (rmse - 100) / 100 * 20
  else if rmse < 300 then 30 - (rmse - 200) / 100 * 15
  else max 5 (15 - (rmse - 300) / 100 * 10)

/-- Linear interpolation from `(x0, y0)` to `(x1, y1)`: the spec's
"linear from y0 to y1 on [x0, x1)". -/
def linSeg (x0 x1 y0 y1 x : ℚ) : ℚ :=
  y0 + (x - x0) / (x1 - x0) * (y1 - y0)

/-- The MAE curve exactly as the specification words it: linear segments
`[0,5): 100→90`, `[5,20): 90→70`, `[20,50): 70→50`, `[50,100): 50→30`,
`[100,200): 30→15`, and `max(5, 15 - (mae-200)/100·10)` beyond. -/
def specMaeCurve (mae : ℚ) : ℚ :=
  if mae < 5 then linSeg 0 5 100 90 mae
  else if mae < 20 then linSeg 5 20 90 70 mae
  else if mae < 50 then linSeg 20 50 70 50 mae
  else if mae < 100 then linSeg 50 100 50 30 mae
  else if mae < 200 then linSeg 100 200 30 15 mae
  else max 5 (15 - (mae - 200) / 100 * 10)

/-- The RMSE curve exactly as the specification words it, with
breakpoints 10, 50, 100, 200, 300. -/
def specRmseCurve (rmse : ℚ) : ℚ :=
  if rmse < 10 then linSeg 0 10 100 90 rmse
  else if rmse < 50 then linSeg 10 50 90 70 rmse
  else if rmse < 100 then linSeg 50 100 70 50 rmse
  else if rmse < 200 then linSeg 100 200 50 30 rmse
  else if rmse < 300 then linSeg 200 300 30 15 rmse
  else max 5 (15 - (rmse - 300) / 100 * 10)

end FlyEval

namespace FlyEval

/-! ## Transport-error detection and the per-sample pipeline
(`utils/json_parser.py`, `main.py`) -/

/-- Prefix test on character lists. -/
def isPrefixL : List Char → List Char → Bool
  | [], _ => true
  | _ :: _, [] => false
  | a :: as', b :: bs => a == b && isPrefixL as' bs

/-- Substring occurrence on character lists (Python `pat in s`). -/
def containsL (pat : List Char) : List Char → Bool
  | [] => isPrefixL pat []
  | c :: rest => isPrefixL pat (c :: rest) || containsL pat rest

/-- Python `pat in s` on strings. -/
def containsSub (s pat : String) : Bool :=
  containsL pat.data s.data

/-- ASCII lower-casing of one character (the keyword list and the error
markers in the replies are ASCII, so Python `str.lower` restricted to
ASCII is the relevant behaviour). -/
def asciiLowerChar (c : Char) : Char :=
  if 'A' ≤ c ∧ c ≤ 'Z' then Char.ofNat (c.toNat + 32) else c

/-- ASCII lower-casing of a string. -/
def asciiLower (s : String) : String :=
  String.mk (s.data.map asciiLowerChar)

/-- The closed keyword list of `is_api_error`. -/
def apiErrorKeywords : List String :=
  ["api error", "api request failed", "timeout",
   "http error", "status code",
   "forbidden", "access denied", "unauthorized", "time out",
   "internal server error", "rate limit exceeded",
   "connection error", "network error", "failed to connect",
   "service unavailable", "bad request", "invalid request",
   "authentication failed", "quota exceeded"]

/-- `is_api_error`: any keyword occurs in the lowercased reply. -/
def isApiError (response : String) : Bool :=
  apiErrorKeywords.any fun kw => containsSub (asciiLower response) kw

/-- The nineteen required schema fields
(`FLYEvalPlusPlus._get_required_fields`, identical for all tasks). -/
def requiredFields : List String :=
  ["Latitude (WGS84 deg)", "Longitude (WGS84 deg)", "GPS Altitude (WGS84 ft)",
   "GPS Ground Track (deg true)", "Magnetic Heading (deg)",
   "GPS Velocity E (m/s)", "GPS Velocity N (m/s)", "GPS Velocity U (m/s)",
   "GPS Ground Speed (kt)", "Roll (deg)", "Pitch (deg)", "Turn Rate (deg/sec)",
   "Slip/Skid", "Normal Acceleration (G)", "Lateral Acceleration (G)",
   "Vertical Speed (fpm)", "Indicated Airspeed (kt)",
   "Baro Altitude (ft)", "Pressure Altitude (ft)"]

/-- `FLYEvalPlusPlus._calculate_completeness`: percentage in `[0,100]`
of required fields present (0 when parsing failed). -/
def calcCompleteness (json : Option FieldMap) (required : List String) : ℚ :=
  match json with
  | none => 0
  | some m =>
      (((required.filter fun f => (lookupF m f).isSome).length : ℚ) /
        (required.length : ℚ)) * 100

/-- Immutable configuration of one evaluator instance: the externally
loaded threshold tables and the float functions of the cross-field
checker. -/
structure VerifierConfig where
  fieldLimits : String → Option (ℚ × ℚ)
  jumpThresholds : String → Option ℚ
  m3Thresholds : String → Option ℚ
  angleFields : List String
  sqrtFn : ℚ → ℚ
  atanDeg : ℚ → ℚ → ℚ

/-- Mutable evaluator state that survives across samples: one evidence
counter per verifier instance (never reset) and the per-model
previous-prediction map (single model). -/
structure EvalState where
  cNumeric : ℕ := 0
  cRange : ℕ := 0
  cJump : ℕ := 0
  cCross : ℕ := 0
  cPhysics : ℕ := 0
  cSafety : ℕ := 0
  prev : FieldMap := []

/-- Per-sample inputs: raw reply text, its parse (the tolerant extractor
of `utils/json_parser.py` is treated as the upstream component producing
`parsed`), task id and required fields. -/
structure SampleInput where
  raw : String
  parsed : Option FieldMap
  taskType : String
  required : List String

/-- `VerifierGraph.execute` on the six registered verifiers, in the
topological order the builder produces (numeric, range, jump,
cross-field, physics, safety), assigning evidence ids from each
verifier's running counter. -/
def runVerifiers (cfg : VerifierConfig) (st : EvalState) (inp : SampleInput) :
    List EvidenceAtom × EvalState :=
  let aNum := numericVerify inp.parsed inp.required
  let aRange := rangeVerify cfg.fieldLimits inp.parsed inp.required
  let aJump := jumpVerify cfg.jumpThresholds cfg.angleFields inp.parsed inp.required
    st.prev inp.taskType
  let aCross := crossFieldVerify cfg.sqrtFn cfg.atanDeg inp.parsed
  let aPhys := physicsVerify cfg.m3Thresholds cfg.jumpThresholds inp.parsed
    inp.required inp.taskType
  let aSafe := safetyVerify inp.parsed
  (assignIdsFrom "NUMERIC_VALIDITY" st.cNumeric aNum ++
    assignIdsFrom "RANGE_SANITY" st.cRange aRange ++
    assignIdsFrom "JUMP_DYNAMICS" st.cJump aJump ++
    assignIdsFrom "CROSS_FIELD_CONSISTENCY" st.cCross aCross ++
    assignIdsFrom "PHYSICS_CONSTRAINT" st.cPhysics aPhys ++
    assignIdsFrom "SAFETY_CONSTRAINT" st.cSafety aSafe,
   { st with
      cNumeric := st.cNumeric + aNum.length,
      cRange := st.cRange + aRange.length,
      cJump := st.cJump + aJump.length,
      cCross := st.cCross + aCross.length,
      cPhysics := st.cPhysics + aPhys.length,
      cSafety := st.cSafety + aSafe.length })

/-- Step 7 of `evaluate_sample`: commit the sample's parsed values of
required fields into the previous-prediction map. -/
def updatePrev (prev : FieldMap) (json : Option FieldMap) (required : List String) : FieldMap :=
  match json with
  | none => prev
  | some m =>
      required.foldl (fun p f =>
        match lookupF m f with
        | some v => setKey p f v
        | none => p) prev

/-- The slice of the per-sample `Record` the verified claims are about:
parsing flag, completeness, the ordered evidence, the agent verdict, and
the wall-clock trace timestamp.  For an API-error reply the source
returns early with empty evidence, an empty agent output and no
completeness entry. -/
structure RecordM where
  parsingSuccess : Bool
  completeness : Option ℚ
  atoms : List EvidenceAtom
  adjudication : Option Adjudication
  timestamp : String
deriving DecidableEq

/-- `FLYEvalPlusPlus.evaluate_sample`, restricted to the record slice
above; `now` is the value `datetime.now().isoformat()` produces. -/
def evaluateSample (cfg : VerifierConfig) (st : EvalState) (inp : SampleInput)
    (now : String) : RecordM × EvalState :=
  if isApiError inp.raw then
    ({ parsingSuccess := false, completeness := none, atoms := [],
       adjudication := none, timestamp := now }, st)
  else
    let (atoms, st1) := runVerifiers cfg st inp
    let verdict := adjudicate atoms
    let st2 := { st1 with prev := updatePrev st1.prev inp.parsed inp.required }
    ({ parsingSuccess := inp.parsed.isSome,
       completeness := some (calcCompleteness inp.parsed inp.required),
       atoms := atoms,
       adjudication := some verdict,
       timestamp := now }, st2)

end FlyEval

namespace FlyEval

/-! ## Helper lemmas -/

/-- The severity/pass invariant of the specification, for one atom. -/
def SevOk (a : EvidenceAtom) : Prop :=
  (a.pass = true → a.severity = Severity.info) ∧
  (a.pass = false → a.severity = Severity.warning ∨ a.severity = Severity.critical)

theorem assignIdsFrom_length (vid : String) (c : ℕ) (l : List EvidenceAtom) :
    (assignIdsFrom vid c l).length = l.length := by
  induction l generalizing c with
  | nil => simp [assignIdsFrom]
  | cons x xs ih => simp [assignIdsFrom, ih]

theorem mem_assignIdsFrom {a : EvidenceAtom} {vid : String} {c : ℕ} {l : List EvidenceAtom}
    (h : a ∈ assignIdsFrom vid c l) :
    ∃ b ∈ l, a.type = b.type ∧ a.pass = b.pass ∧ a.severity = b.severity ∧ a.field = b.field := by
  induction l generalizing c with
  | nil => simp [assignIdsFrom] at h
  | cons x xs ih =>
      simp only [assignIdsFrom, List.mem_cons] at h
      rcases h with h | h
      · exact ⟨x, List.mem_cons_self x xs, by simp [h]⟩
      · obtain ⟨b, hb, hp⟩ := ih h
        exact ⟨b, List.mem_cons_of_mem x hb, hp⟩

theorem exists_assignIdsFrom {b : EvidenceAtom} {l : List EvidenceAtom} (vid : String) (c : ℕ)
    (h : b ∈ l) :
    ∃ a ∈ assignIdsFrom vid c l,
      a.type = b.type ∧ a.pass = b.pass ∧ a.severity = b.severity := by
  induction l generalizing c with
  | nil => simp at h
  | cons x xs ih =>
      rcases List.mem_cons.mp h with rfl | h
      · exact ⟨{ b with id := mkEvidenceId vid (c + 1) }, List.mem_cons_self _ _, by simp⟩
      · obtain ⟨a, ha, hp⟩ := ih (c + 1) h
        exact ⟨a, List.mem_cons_of_mem _ ha, hp⟩

theorem countsOf_assignIdsFrom (vid : String) (c : ℕ) (l : List EvidenceAtom) (ty : String) :
    countsOf (assignIdsFrom vid c l) ty = countsOf l ty := by
  induction l generalizing c with
  | nil => simp [assignIdsFrom]
  | cons x xs ih =>
      have h1 := ih (c + 1)
      simp only [countsOf, TypeCounts.mk.injEq] at h1 ⊢
      simp only [assignIdsFrom, List.filter_cons]
      constructor <;> split <;> simp_all

theorem countsOf_append (l1 l2 : List EvidenceAtom) (ty : String) :
    countsOf (l1 ++ l2) ty =
      { passCount := (countsOf l1 ty).passCount + (countsOf l2 ty).passCount,
        failCount := (countsOf l1 ty).failCount + (countsOf l2 ty).failCount } := by
  simp [countsOf, List.filter_append]

theorem countsOf_eq_zero_of_type_ne {l : List EvidenceAtom} {ty : String}
    (h : ∀ a ∈ l, a.type ≠ ty) : countsOf l ty = { passCount := 0, failCount := 0 } := by
  simp only [countsOf, TypeCounts.mk.injEq, List.length_eq_zero, List.filter_eq_nil]
  constructor <;> intro a ha <;> simp [h a ha]

end FlyEval

namespace FlyEval

/-! ## Per-verifier atom profiles -/

theorem numericValueAtom_profile (label : String) (v : JsonVal) :
    (numericValueAtom label v).type = "numeric_validity" ∧ SevOk (numericValueAtom label v) ∧
      ((numericValueAtom label v).pass = false →
        (numericValueAtom label v).severity = Severity.critical) := by
  unfold numericValueAtom SevOk
  split <;> simp

theorem mem_numericArrAtoms {a : EvidenceAtom} {field : String} :
    ∀ {i : ℕ} {xs : List JsonVal}, a ∈ numericArrAtoms field i xs →
      ∃ label v, a = numericValueAtom label v := by
  intro i xs
  induction xs generalizing i with
  | nil => intro h; simp [numericArrAtoms] at h
  | cons x rest ih =>
      intro h
      rcases List.mem_cons.mp h with rfl | h
      · exact ⟨_, _, rfl⟩
      · exact ih h

theorem mem_numericFieldAtoms {a : EvidenceAtom} {f : String} {v? : Option JsonVal}
    (h : a ∈ numericFieldAtoms f v?) :
    a = numericMissingAtom f ∨ ∃ label v, a = numericValueAtom label v := by
  match v? with
  | none => simp only [numericFieldAtoms, List.mem_singleton] at h; exact Or.inl h
  | some (JsonVal.arr xs) =>
      exact Or.inr (mem_numericArrAtoms (by simpa [numericFieldAtoms] using h))
  | some JsonVal.null =>
      simp only [numericFieldAtoms, List.mem_singleton] at h; exact Or.inr ⟨_, _, h⟩
  | some (JsonVal.bool b) =>
      simp only [numericFieldAtoms, List.mem_singleton] at h; exact Or.inr ⟨_, _, h⟩
  | some (JsonVal.num q) =>
      simp only [numericFieldAtoms, List.mem_singleton] at h; exact Or.inr ⟨_, _, h⟩
  | some (JsonVal.str s) =>
      simp only [numericFieldAtoms, List.mem_singleton] at h; exact Or.inr ⟨_, _, h⟩

theorem numericVerify_profile {a : EvidenceAtom} {json : Option FieldMap} {req : List String}
    (h : a ∈ numericVerify json req) :
    a.type = "numeric_validity" ∧ SevOk a ∧
      (a.pass = false → a.severity = Severity.critical) := by
  match json with
  | none => simp [numericVerify] at h
  | some m =>
      simp only [numericVerify, List.mem_bind] at h
      obtain ⟨f, _, hmem⟩ := h
      rcases mem_numericFieldAtoms hmem with rfl | ⟨label, v, rfl⟩
      · simp [numericMissingAtom, SevOk]
      · exact numericValueAtom_profile label v

theorem rangeFailSeverity_not_info (limits : String → Option (ℚ × ℚ)) (f : String)
    (v : JsonVal) : rangeFailSeverity limits f v ≠ Severity.info := by
  unfold rangeFailSeverity
  split
  · simp
  · dsimp only
    split
    · simp
    · split_ifs <;> simp

theorem rangeFieldAtoms_profile {a : EvidenceAtom} {limits : String → Option (ℚ × ℚ)}
    {f : String} {v? : Option JsonVal} (h : a ∈ rangeFieldAtoms limits f v?) :
    a.type = "range_sanity" ∧ SevOk a := by
  match v? with
  | none => simp [rangeFieldAtoms] at h
  | some v =>
      simp only [rangeFieldAtoms] at h
      split at h <;> simp only [List.mem_singleton] at h <;> subst h
      · simp [SevOk]
      · refine ⟨rfl, ?_, ?_⟩
        · intro hp; simp at hp
        · intro _
          rcases hs : rangeFailSeverity limits f v with _ | _ | _
          · simp [hs]
          · simp [hs]
          · exact absurd hs (rangeFailSeverity_not_info limits f v)

theorem rangeVerify_profile {a : EvidenceAtom} {limits : String → Option (ℚ × ℚ)}
    {json : Option FieldMap} {req : List String}
    (h : a ∈ rangeVerify limits json req) :
    a.type = "range_sanity" ∧ SevOk a := by
  match json with
  | none => simp [rangeVerify] at h
  | some m =>
      simp only [rangeVerify, List.mem_bind] at h
      obtain ⟨f, _, hmem⟩ := h
      exact rangeFieldAtoms_profile hmem

end FlyEval

namespace FlyEval

theorem severity_ne_info {s : Severity} (h : s ≠ Severity.info) :
    s = Severity.warning ∨ s = Severity.critical := by
  cases s <;> simp_all

theorem mem_ite_singleton {c : Prop} [Decidable c] {a x : EvidenceAtom}
    (h : a ∈ (if c then [x] else [])) : a = x := by
  split at h <;> simp_all

theorem jumpFailSeverity_not_info (t c : ℚ) : jumpFailSeverity t c ≠ Severity.info := by
  unfold jumpFailSeverity
  dsimp only
  split_ifs <;> simp

theorem jumpFieldAtoms_profile {a : EvidenceAtom} {thr : String → Option ℚ}
    {af : List String} {f : String} {prev : FieldMap} {task : String} {v? : Option JsonVal}
    (h : a ∈ jumpFieldAtoms thr af f prev task v?) :
    a.type = "jump_dynamics" ∧ SevOk a := by
  match v? with
  | none => simp [jumpFieldAtoms] at h
  | some current =>
      simp only [jumpFieldAtoms] at h
      split at h
      · simp at h
      · split at h
        · split at h
          · simp only [List.mem_singleton] at h
            subst h
            simp [SevOk]
          · simp at h
        · simp only [List.mem_singleton] at h
          subst h
          refine ⟨rfl, ?_, ?_⟩
          · intro hp; simp at hp
          · intro _
            exact severity_ne_info (jumpFailSeverity_not_info _ _)

/-- Pairing invariant of the `(severity, pass)` helpers. -/
def PairOk (sp : Severity × Bool) : Prop :=
  (sp.2 = true → sp.1 = Severity.info) ∧
  (sp.2 = false → sp.1 = Severity.warning ∨ sp.1 = Severity.critical)

theorem altParity_pairOk (d : ℚ) : PairOk (altParity d) := by
  unfold altParity PairOk
  split_ifs <;> simp

theorem speedParity_pairOk (d : ℚ) : PairOk (speedParity d) := by
  unfold speedParity PairOk
  split_ifs <;> simp

theorem trackParity_pairOk (d : ℚ) : PairOk (trackParity d) := by
  unfold trackParity PairOk
  split_ifs <;> simp

theorem crossAtom_profile {sp : Severity × Bool} (rule : String) (hp : PairOk sp) :
    (crossAtom rule sp).type = "cross_field_consistency" ∧ SevOk (crossAtom rule sp) :=
  ⟨rfl, hp.1, hp.2⟩

theorem mem_altLoop {a : EvidenceAtom} :
    ∀ {pairs : List (JsonVal × JsonVal)} {idx : ℕ}, a ∈ altLoop pairs idx →
      ∃ sp, PairOk sp ∧ a = crossAtom "GPS_Alt_vs_Baro_Alt" sp := by
  intro pairs
  induction pairs with
  | nil => intro idx h; simp [altLoop] at h
  | cons p rest ih =>
      intro idx h
      obtain ⟨g, b⟩ := p
      simp only [altLoop] at h
      split at h
      · rcases List.mem_append.mp h with h | h
        · exact ⟨_, altParity_pairOk _, mem_ite_singleton h⟩
        · exact ih h
      · simp at h

theorem mem_speedLoop {a : EvidenceAtom} {sq : ℚ → ℚ} :
    ∀ {triples : List (JsonVal × JsonVal × JsonVal)} {idx : ℕ}, a ∈ speedLoop sq triples idx →
      ∃ sp, PairOk sp ∧ a = crossAtom "Ground_Speed_vs_Velocity" sp := by
  intro triples
  induction triples with
  | nil => intro idx h; simp [speedLoop] at h
  | cons p rest ih =>
      intro idx h
      obtain ⟨gs, ve, vn⟩ := p
      simp only [speedLoop] at h
      split at h
      · rcases List.mem_append.mp h with h | h
        · exact ⟨_, speedParity_pairOk _, mem_ite_singleton h⟩
        · exact ih h
      · simp at h

theorem mem_trackLoop {a : EvidenceAtom} {at2 : ℚ → ℚ → ℚ} :
    ∀ {triples : List (JsonVal × JsonVal × JsonVal)} {idx : ℕ}, a ∈ trackLoop at2 triples idx →
      ∃ sp, PairOk sp ∧ a = crossAtom "Track_vs_Velocity_Direction" sp := by
  intro triples
  induction triples with
  | nil => intro idx h; simp [trackLoop] at h
  | cons p rest ih =>
      intro idx h
      obtain ⟨tr, ve, vn⟩ := p
      simp only [trackLoop] at h
      split at h
      · rcases List.mem_append.mp h with h | h
        · exact ⟨_, trackParity_pairOk _, mem_ite_singleton h⟩
        · exact ih h
      · simp at h

theorem crossFieldVerify_profile {a : EvidenceAtom} {sq : ℚ → ℚ} {at2 : ℚ → ℚ → ℚ}
    {json : Option FieldMap} (h : a ∈ crossFieldVerify sq at2 json) :
    a.type = "cross_field_consistency" ∧ SevOk a := by
  match json with
  | none => simp [crossFieldVerify] at h
  | some m =>
      simp only [crossFieldVerify, List.mem_append] at h
      rcases h with (h | h) | h
      · split at h
        · obtain ⟨sp, hsp, rfl⟩ := mem_altLoop h
          exact crossAtom_profile _ hsp
        · simp at h
      · split at h
        · obtain ⟨sp, hsp, rfl⟩ := mem_speedLoop h
          exact crossAtom_profile _ hsp
        · simp at h
      · split at h
        · obtain ⟨sp, hsp, rfl⟩ := mem_trackLoop h
          exact crossAtom_profile _ hsp
        · simp at h

end FlyEval

namespace FlyEval

theorem mem_physContFieldAtoms {a : EvidenceAtom} {m3 jt : String → Option ℚ}
    {m : FieldMap} {f : String} (h : a ∈ physContFieldAtoms m3 jt m f) :
    a.type = "physics_constraint" ∧ SevOk a := by
  unfold physContFieldAtoms at h
  split at h
  · simp at h
  · split at h
    · simp at h
    · dsimp only at h
      split at h
      · have := List.mem_singleton.mp h
        subst this
        simp [SevOk]
      · have := List.mem_singleton.mp h
        subst this
        refine ⟨rfl, ?_, ?_⟩
        · intro hp; simp at hp
        · intro _
          dsimp only
          split
          · split_ifs <;> simp
          · simp
  · simp at h

theorem mem_velAltLoop {a : EvidenceAtom} :
    ∀ {pairs : List (JsonVal × JsonVal)} {idx : ℕ}, a ∈ velAltLoop pairs idx →
      a.type = "physics_constraint" ∧ SevOk a := by
  intro pairs
  induction pairs with
  | nil => intro idx h; simp [velAltLoop] at h
  | cons p rest ih =>
      intro idx h
      obtain ⟨alt, vs⟩ := p
      simp only [velAltLoop] at h
      split at h
      · rcases List.mem_append.mp h with h | h
        · have := mem_ite_singleton h
          subst this
          refine ⟨rfl, ?_⟩
          dsimp only
          split_ifs <;> simp [SevOk]
        · exact ih h
      · simp at h

theorem mem_attitudeLoop {a : EvidenceAtom} :
    ∀ {triples : List (JsonVal × JsonVal × JsonVal)} {idx : ℕ}, a ∈ attitudeLoop triples idx →
      a.type = "physics_constraint" ∧ SevOk a := by
  intro triples
  induction triples with
  | nil => intro idx h; simp [attitudeLoop] at h
  | cons p rest ih =>
      intro idx h
      obtain ⟨roll, pitch, vu⟩ := p
      simp only [attitudeLoop] at h
      split at h
      · rcases List.mem_append.mp h with h | h
        · have := mem_ite_singleton h
          subst this
          refine ⟨rfl, ?_⟩
          dsimp only
          split_ifs <;> simp [SevOk]
        · exact ih h
      · simp at h

theorem physicsVerify_profile {a : EvidenceAtom} {m3 jt : String → Option ℚ}
    {json : Option FieldMap} {req : List String} {task : String}
    (h : a ∈ physicsVerify m3 jt json req task) :
    a.type = "physics_constraint" ∧ SevOk a := by
  match json with
  | none => simp [physicsVerify] at h
  | some m =>
      simp only [physicsVerify, List.mem_append] at h
      rcases h with (h | h) | h
      · split at h
        · simp only [List.mem_bind] at h
          obtain ⟨f, _, hmem⟩ := h
          exact mem_physContFieldAtoms hmem
        · simp at h
      · split at h
        · exact mem_velAltLoop h
        · simp at h
      · split at h
        · exact mem_attitudeLoop h
        · simp at h

theorem mem_rapidDescentLoop {a : EvidenceAtom} :
    ∀ {pairs : List (JsonVal × Option JsonVal)}, a ∈ rapidDescentLoop pairs →
      a.type = "safety_constraint" ∧ a.pass = false ∧
        (a.severity = Severity.warning ∨ a.severity = Severity.critical) := by
  intro pairs
  induction pairs with
  | nil => intro h; simp [rapidDescentLoop] at h
  | cons p rest ih =>
      intro h
      obtain ⟨vs, alt?⟩ := p
      simp only [rapidDescentLoop] at h
      split at h
      · simp at h
      · split_ifs at h
        · rcases List.mem_cons.mp h with rfl | h
          · simp
          · exact ih h
        · simp at h
        · rcases List.mem_cons.mp h with rfl | h
          · simp
          · exact ih h
        · exact ih h

theorem mem_extremeSpeedLoop {a : EvidenceAtom} :
    ∀ {vals : List JsonVal}, a ∈ extremeSpeedLoop vals →
      a.type = "safety_constraint" ∧ a.pass = false ∧
        (a.severity = Severity.warning ∨ a.severity = Severity.critical) := by
  intro vals
  induction vals with
  | nil => intro h; simp [extremeSpeedLoop] at h
  | cons v rest ih =>
      intro h
      simp only [extremeSpeedLoop] at h
      split at h
      · simp at h
      · split_ifs at h
        · rcases List.mem_cons.mp h with rfl | h
          · simp
          · exact ih h
        · rcases List.mem_cons.mp h with rfl | h
          · simp
          · exact ih h
        · exact ih h

theorem mem_extremeAltLoop {a : EvidenceAtom} :
    ∀ {vals : List JsonVal}, a ∈ extremeAltLoop vals →
      a.type = "safety_constraint" ∧ a.pass = false ∧
        (a.severity = Severity.warning ∨ a.severity = Severity.critical) := by
  intro vals
  induction vals with
  | nil => intro h; simp [extremeAltLoop] at h
  | cons v rest ih =>
      intro h
      simp only [extremeAltLoop] at h
      split at h
      · simp at h
      · split_ifs at h
        · rcases List.mem_cons.mp h with rfl | h
          · simp
          · exact ih h
        · rcases List.mem_cons.mp h with rfl | h
          · simp
          · exact ih h
        · exact ih h

theorem mem_stallLoop {a : EvidenceAtom} :
    ∀ {triples : List (JsonVal × JsonVal × JsonVal)}, a ∈ stallLoop triples →
      a.type = "safety_constraint" ∧ a.pass = false ∧
        (a.severity = Severity.warning ∨ a.severity = Severity.critical) := by
  intro triples
  induction triples with
  | nil => intro h; simp [stallLoop] at h
  | cons p rest ih =>
      intro h
      obtain ⟨ias, pitch, vs⟩ := p
      simp only [stallLoop] at h
      split at h
      · split_ifs at h
        · rcases List.mem_cons.mp h with rfl | h
          · simp
          · exact ih h
        · exact ih h
      · simp at h

theorem safetyVerify_profile {a : EvidenceAtom} {json : Option FieldMap}
    (h : a ∈ safetyVerify json) :
    a.type = "safety_constraint" ∧ a.pass = false ∧
      (a.severity = Severity.warning ∨ a.severity = Severity.critical) := by
  match json with
  | none => simp [safetyVerify] at h
  | some m =>
      simp only [safetyVerify, List.mem_append] at h
      rcases h with ((h | h) | h) | h
      · split at h
        · simp at h
        · exact mem_rapidDescentLoop h
      · split at h
        · simp at h
        · exact mem_extremeSpeedLoop h
      · split at h
        · simp at h
        · exact mem_extremeAltLoop h
      · split at h
        · exact mem_stallLoop h
        · simp at h

theorem safetyVerify_sevOk {a : EvidenceAtom} {json : Option FieldMap}
    (h : a ∈ safetyVerify json) : SevOk a := by
  obtain ⟨-, hp, hs⟩ := safetyVerify_profile h
  refine ⟨fun hx => ?_, fun _ => hs⟩
  rw [hx] at hp
  cases hp

end FlyEval

namespace FlyEval

/-! ## Pipeline-level lemmas -/

theorem filter_not_isEmpty_iff {p : EvidenceAtom → Bool} {l : List EvidenceAtom} :
    (l.filter p).isEmpty = false ↔ ∃ a ∈ l, p a = true := by
  induction l with
  | nil => simp
  | cons x xs ih => by_cases hx : p x <;> simp [List.filter_cons, hx, ih]

theorem adjudicate_ineligible_iff (atoms : List EvidenceAtom) :
    adjudicate atoms = Adjudication.ineligible ↔
      ((∃ a ∈ atoms, a.severity = Severity.critical ∧ a.pass = false) ∨
       (∃ a ∈ atoms, a.type = "numeric_validity" ∧ a.pass = false)) := by
  unfold adjudicate
  dsimp only
  split_ifs with hcond
  · constructor
    · intro _
      rcases Bool.or_eq_true_iff.mp hcond with hc | hc
      · exact Or.inl (by simpa using hc)
      · exact Or.inr (by simpa using hc)
    · intro _
      rfl
  · simp only [Bool.or_eq_true, Bool.not_eq_true', not_or] at hcond
    obtain ⟨h1, h2⟩ := hcond
    constructor
    · intro hx
      cases hx
    · intro hx
      exfalso
      rcases hx with ⟨a, ha, hc, hp⟩ | ⟨a, ha, ht, hp⟩
      · have hw : ((atoms.filter fun x =>
            decide (x.severity = Severity.critical ∧ x.pass = false)).isEmpty = false) :=
          filter_not_isEmpty_iff.mpr ⟨a, ha, by simp [hc, hp]⟩
        exact h1 hw
      · have hw : ((atoms.filter fun x =>
            decide (x.type = "numeric_validity" ∧ x.pass = false)).isEmpty = false) :=
          filter_not_isEmpty_iff.mpr ⟨a, ha, by simp [ht, hp]⟩
        exact h2 hw

theorem numericVerify_type_tag {a : EvidenceAtom} {json : Option FieldMap} {req : List String}
    (h : a ∈ numericVerify json req) : a.type = "numeric_validity" :=
  (numericVerify_profile h).1

/-- Every atom of the assembled verifier run satisfies the severity
invariant, and its type tag identifies the verifier that emitted it. -/
theorem runVerifiers_atom_cases {cfg : VerifierConfig} {st : EvalState} {inp : SampleInput}
    {a : EvidenceAtom} (h : a ∈ (runVerifiers cfg st inp).1) :
    ∃ b, (a.type = b.type ∧ a.pass = b.pass ∧ a.severity = b.severity) ∧
      (b ∈ numericVerify inp.parsed inp.required ∨
       b ∈ rangeVerify cfg.fieldLimits inp.parsed inp.required ∨
       b ∈ jumpVerify cfg.jumpThresholds cfg.angleFields inp.parsed inp.required st.prev inp.taskType ∨
       b ∈ crossFieldVerify cfg.sqrtFn cfg.atanDeg inp.parsed ∨
       b ∈ physicsVerify cfg.m3Thresholds cfg.jumpThresholds inp.parsed inp.required inp.taskType ∨
       b ∈ safetyVerify inp.parsed) := by
  simp only [runVerifiers, List.mem_append] at h
  rcases h with ((((h | h) | h) | h) | h) | h <;>
    · obtain ⟨b, hb, ht, hp, hs, -⟩ := mem_assignIdsFrom h
      exact ⟨b, ⟨ht, hp, hs⟩, by tauto⟩

theorem jumpVerify_type_tag {a : EvidenceAtom} {thr : String → Option ℚ} {af : List String}
    {json : Option FieldMap} {req : List String} {prev : FieldMap} {task : String}
    (h : a ∈ jumpVerify thr af json req prev task) : a.type = "jump_dynamics" := by
  match json with
  | none => simp [jumpVerify] at h
  | some m =>
      simp only [jumpVerify, List.mem_bind] at h
      obtain ⟨f, _, hmem⟩ := h
      exact (jumpFieldAtoms_profile hmem).1

theorem runVerifiers_sevOk {cfg : VerifierConfig} {st : EvalState} {inp : SampleInput}
    {a : EvidenceAtom} (h : a ∈ (runVerifiers cfg st inp).1) : SevOk a := by
  obtain ⟨b, ⟨-, hp, hs⟩, hmem⟩ := runVerifiers_atom_cases h
  have hb : SevOk b := by
    rcases hmem with h' | h' | h' | h' | h' | h'
    · exact (numericVerify_profile h').2.1
    · exact (rangeVerify_profile h').2
    · match inp.parsed, h' with
      | some m, h' =>
          simp only [jumpVerify, List.mem_bind] at h'
          obtain ⟨f, -, hmem'⟩ := h'
          exact (jumpFieldAtoms_profile hmem').2
    · exact (crossFieldVerify_profile h').2
    · exact (physicsVerify_profile h').2
    · exact safetyVerify_sevOk h'
  exact ⟨fun hx => by rw [hs]; exact hb.1 (by rw [← hp, hx]),
         fun hx => by rw [hs]; exact (by simpa [hs] using hb.2 (by rw [← hp, hx]))⟩

end FlyEval

namespace FlyEval

/-! ## Counting lemmas for the rubric dimensions -/

theorem failCount_pos_of_mem {a : EvidenceAtom} {atoms : List EvidenceAtom} {ty : String}
    (ha : a ∈ atoms) (ht : a.type = ty) (hp : a.pass = false) :
    0 < (countsOf atoms ty).failCount := by
  have hmem : a ∈ atoms.filter fun x => decide (x.type = ty ∧ x.pass = false) :=
    List.mem_filter.mpr ⟨ha, by simp [ht, hp]⟩
  exact List.length_pos_of_mem hmem

theorem counts_numeric_pipeline (cfg : VerifierConfig) (st : EvalState) (inp : SampleInput) :
    countsOf ((runVerifiers cfg st inp).1) "numeric_validity" =
      countsOf (numericVerify inp.parsed inp.required) "numeric_validity" := by
  have hz2 : countsOf (rangeVerify cfg.fieldLimits inp.parsed inp.required) "numeric_validity" =
      { passCount := 0, failCount := 0 } :=
    countsOf_eq_zero_of_type_ne fun a ha => by rw [(rangeVerify_profile ha).1]; decide
  have hz3 : countsOf (jumpVerify cfg.jumpThresholds cfg.angleFields inp.parsed inp.required
      st.prev inp.taskType) "numeric_validity" = { passCount := 0, failCount := 0 } :=
    countsOf_eq_zero_of_type_ne fun a ha => by rw [jumpVerify_type_tag ha]; decide
  have hz4 : countsOf (crossFieldVerify cfg.sqrtFn cfg.atanDeg inp.parsed) "numeric_validity" =
      { passCount := 0, failCount := 0 } :=
    countsOf_eq_zero_of_type_ne fun a ha => by rw [(crossFieldVerify_profile ha).1]; decide
  have hz5 : countsOf (physicsVerify cfg.m3Thresholds cfg.jumpThresholds inp.parsed inp.required
      inp.taskType) "numeric_validity" = { passCount := 0, failCount := 0 } :=
    countsOf_eq_zero_of_type_ne fun a ha => by rw [(physicsVerify_profile ha).1]; decide
  have hz6 : countsOf (safetyVerify inp.parsed) "numeric_validity" =
      { passCount := 0, failCount := 0 } :=
    countsOf_eq_zero_of_type_ne fun a ha => by rw [(safetyVerify_profile ha).1]; decide
  simp [runVerifiers, countsOf_append, countsOf_assignIdsFrom, hz2, hz3, hz4, hz5, hz6]

theorem counts_safety_pipeline (cfg : VerifierConfig) (st : EvalState) (inp : SampleInput) :
    countsOf ((runVerifiers cfg st inp).1) "safety_constraint" =
      countsOf (safetyVerify inp.parsed) "safety_constraint" := by
  have hz1 : countsOf (numericVerify inp.parsed inp.required) "safety_constraint" =
      { passCount := 0, failCount := 0 } :=
    countsOf_eq_zero_of_type_ne fun a ha => by rw [(numericVerify_profile ha).1]; decide
  have hz2 : countsOf (rangeVerify cfg.fieldLimits inp.parsed inp.required) "safety_constraint" =
      { passCount := 0, failCount := 0 } :=
    countsOf_eq_zero_of_type_ne fun a ha => by rw [(rangeVerify_profile ha).1]; decide
  have hz3 : countsOf (jumpVerify cfg.jumpThresholds cfg.angleFields inp.parsed inp.required
      st.prev inp.taskType) "safety_constraint" = { passCount := 0, failCount := 0 } :=
    countsOf_eq_zero_of_type_ne fun a ha => by rw [jumpVerify_type_tag ha]; decide
  have hz4 : countsOf (crossFieldVerify cfg.sqrtFn cfg.atanDeg inp.parsed) "safety_constraint" =
      { passCount := 0, failCount := 0 } :=
    countsOf_eq_zero_of_type_ne fun a ha => by rw [(crossFieldVerify_profile ha).1]; decide
  have hz5 : countsOf (physicsVerify cfg.m3Thresholds cfg.jumpThresholds inp.parsed inp.required
      inp.taskType) "safety_constraint" = { passCount := 0, failCount := 0 } :=
    countsOf_eq_zero_of_type_ne fun a ha => by rw [(physicsVerify_profile ha).1]; decide
  simp [runVerifiers, countsOf_append, countsOf_assignIdsFrom, hz1, hz2, hz3, hz4, hz5]

theorem safety_passCount_zero (json : Option FieldMap) :
    (countsOf (safetyVerify json) "safety_constraint").passCount = 0 := by
  simp only [countsOf]
  rw [List.length_eq_zero]
  rw [List.filter_eq_nil_iff]
  intro a ha
  have := (safetyVerify_profile ha).2.1
  simp [this]

/-! ## Rubric grade lemmas -/

theorem failCount_eq_zero_of_ratioOk_zero {nc : TypeCounts} (h : ratioOk nc 0 = true) :
    nc.failCount = 0 := by
  unfold ratioOk at h
  dsimp only at h
  split_ifs at h with htot
  · simp only [Bool.not_eq_true', decide_eq_false_iff_not, not_lt] at h
    by_contra hf
    have hfpos : (0 : ℚ) < (nc.failCount : ℚ) := by
      exact_mod_cast Nat.pos_of_ne_zero hf
    have htotpos : (0 : ℚ) < ((nc.passCount + nc.failCount : ℕ) : ℚ) := by
      exact_mod_cast htot
    have := div_pos hfpos htotpos
    linarith
  · omega

theorem determineGradeProtocol_parse_failed (nc : TypeCounts) (cr : ℚ) :
    determineGradeProtocol nc false cr = Grade.D := by
  have hA : protocolMatches Grade.A nc false cr = false := by
    unfold protocolMatches protocolReq; simp
  have hB : protocolMatches Grade.B nc false cr = false := by
    unfold protocolMatches protocolReq; simp
  have hC : protocolMatches Grade.C nc false cr = false := by
    unfold protocolMatches protocolReq; simp
  unfold determineGradeProtocol
  rw [hA, hB, hC]
  simp only [Bool.false_eq_true, if_false]
  split_ifs <;> rfl

theorem determineGradeProtocol_eq_A_iff (nc : TypeCounts) (ps : Bool) (cr : ℚ) :
    determineGradeProtocol nc ps cr = Grade.A ↔ protocolMatches Grade.A nc ps cr = true := by
  unfold determineGradeProtocol
  split_ifs with h1 h2 h3 h4 <;> simp_all

theorem determineGradeProtocol_ne_A_of_fail {nc : TypeCounts} (hf : 0 < nc.failCount)
    (ps : Bool) (cr : ℚ) : determineGradeProtocol nc ps cr ≠ Grade.A := by
  intro hA
  have hm := (determineGradeProtocol_eq_A_iff nc ps cr).mp hA
  unfold protocolMatches protocolReq at hm
  dsimp only at hm
  simp only [Bool.and_eq_true] at hm
  have := failCount_eq_zero_of_ratioOk_zero hm.1.1
  omega

theorem ratioOk_all_fail {n : ℕ} (hn : 0 < n) (r : ℚ) :
    ratioOk { passCount := 0, failCount := n } r = !(decide (r < 1)) := by
  unfold ratioOk
  dsimp only
  rw [if_pos (by omega : 0 < 0 + n)]
  have hcast : (((0 + n : ℕ)) : ℚ) = (n : ℚ) := by push_cast; ring
  rw [hcast, div_self (by exact_mod_cast hn.ne' : (n : ℚ) ≠ 0)]

theorem determineGradeSafety_all_fail {n : ℕ} (hn : 0 < n) :
    determineGradeSafety { passCount := 0, failCount := n } = Grade.D := by
  unfold determineGradeSafety safetyMaxRate
  rw [ratioOk_all_fail hn, ratioOk_all_fail hn, ratioOk_all_fail hn, ratioOk_all_fail hn]
  norm_num

end FlyEval

namespace FlyEval

theorem numericMissingAtom_mem {m : FieldMap} {req : List String} {f : String}
    (hf : f ∈ req) (hmiss : (lookupF m f).isSome = false) :
    numericMissingAtom f ∈ numericVerify (some m) req := by
  simp only [numericVerify, List.mem_bind]
  refine ⟨f, hf, ?_⟩
  have hnone : lookupF m f = none := by
    cases h : lookupF m f
    · rfl
    · rw [h] at hmiss; simp at hmiss
  simp [numericFieldAtoms, hnone]

theorem numericVerify_failCount_pos {m : FieldMap} {req : List String} {f : String}
    (hf : f ∈ req) (hmiss : (lookupF m f).isSome = false) :
    0 < (countsOf (numericVerify (some m) req) "numeric_validity").failCount :=
  failCount_pos_of_mem (numericMissingAtom_mem hf hmiss) rfl rfl

theorem exists_missing_of_completeness_lt {m : FieldMap} {req : List String}
    (hreq : req ≠ []) (h : calcCompleteness (some m) req < 80) :
    ∃ f ∈ req, (lookupF m f).isSome = false := by
  by_contra hq
  push_neg at hq
  have hall : ∀ f ∈ req, (lookupF m f).isSome = true := by
    intro f hf
    have := hq f hf
    cases hx : (lookupF m f).isSome
    · exact absurd hx this
    · rfl
  have hfil : (req.filter fun f => (lookupF m f).isSome) = req :=
    List.filter_eq_self.mpr hall
  have hlen : (req.length : ℚ) ≠ 0 := by
    have : req.length ≠ 0 := by
      intro hz; exact hreq (List.length_eq_zero.mp hz)
    exact_mod_cast this
  rw [calcCompleteness, hfil, div_self hlen] at h
  norm_num at h

theorem exists_pipeline_of_numeric {cfg : VerifierConfig} {st : EvalState} {inp : SampleInput}
    {b : EvidenceAtom} (hb : b ∈ numericVerify inp.parsed inp.required) :
    ∃ a ∈ (runVerifiers cfg st inp).1,
      a.type = b.type ∧ a.pass = b.pass ∧ a.severity = b.severity := by
  obtain ⟨a, ha, hp⟩ := exists_assignIdsFrom "NUMERIC_VALIDITY" st.cNumeric hb
  refine ⟨a, ?_, hp⟩
  simp only [runVerifiers]
  exact List.mem_append_left _ (List.mem_append_left _ (List.mem_append_left _
    (List.mem_append_left _ (List.mem_append_left _ ha))))

/-! ## Adjacent-change characterization of the M3 jump check -/

/-- The adjacent-step changes of an array, as the specification words
them (for `i = 1 … N-1`); pairs with a non-convertible end are the ones
the source's `continue` skips. -/
def adjacentChanges (angle : Bool) : List JsonVal → List ℚ
  | [] => []
  | [_] => []
  | x :: y :: rest =>
      match floatOf x, floatOf y with
      | some p, some c => stepChange angle p c :: adjacentChanges angle (y :: rest)
      | _, _ => adjacentChanges angle (y :: rest)

theorem m3MutLoop_spec (angle : Bool) (t : ℚ) :
    ∀ (xs : List JsonVal) (m : ℚ),
      m3MutLoop angle t xs m =
        match (adjacentChanges angle xs).find? (fun c => decide (t < c)) with
        | some c => (false, c)
        | none => (true, (adjacentChanges angle xs).foldl max m) := by
  intro xs
  induction xs with
  | nil => intro m; simp [m3MutLoop, adjacentChanges]
  | cons x rest ih =>
      cases rest with
      | nil => intro m; simp [m3MutLoop, adjacentChanges]
      | cons y rest2 =>
          intro m
          simp only [m3MutLoop, adjacentChanges]
          rcases hx : floatOf x with _ | p <;>
            rcases hy : floatOf y with _ | c <;> dsimp only
          · exact ih m
          · exact ih m
          · exact ih m
          · by_cases hlt : t < stepChange angle p c
            · rw [if_pos hlt]
              simp [List.find?_cons, hlt]
            · rw [if_neg hlt, ih (max m (stepChange angle p c))]
              simp only [List.find?_cons, hlt, decide_False, List.foldl_cons]

end FlyEval

namespace FlyEval

/-! ## Concrete fixtures for counterexamples and witnesses -/

/-- Minimal concrete configuration: empty limit/threshold tables (the
tables are externally loaded inputs), arbitrary float functions. -/
def cfg0 : VerifierConfig :=
  { fieldLimits := fun _ => none, jumpThresholds := fun _ => none,
    m3Thresholds := fun _ => none, angleFields := [],
    sqrtFn := fun _ => 0, atanDeg := fun _ _ => 0 }

/-- Fresh evaluator state: all evidence counters zero, no previous
predictions. -/
def st0 : EvalState := {}

/-- A reply that is not a transport error and does not parse as JSON. -/
def inpParseFail : SampleInput :=
  { raw := "no json in this reply", parsed := none, taskType := "S1",
    required := requiredFields }

/-- A parsed but completely empty field map. -/
def inpEmptyMap : SampleInput :=
  { raw := "reply", parsed := some [], taskType := "S1", required := requiredFields }

/-- A sample containing only a rapid-descent vertical speed. -/
def inpRapidDescent : SampleInput :=
  { raw := "reply", parsed := some [("Vertical Speed (fpm)", JsonVal.num (-3500))],
    taskType := "S1", required := [] }

/-- The single safety atom the pipeline emits for `inpRapidDescent`. -/
def rapidDescentAtom : EvidenceAtom :=
  { id := "EVID_SAFETY_CONSTRAINT_0001", type := "safety_constraint",
    field := some "Rapid_Descent", pass := false, severity := Severity.critical,
    scope := Scope.sample, message := "Rapid descent detected", score := none }

/-! ## C1 — gating verdict -/

/-- Claim C1 (counterexample): the claim says a sample whose Protocol Result
indicates parse failure must be adjudicated `ineligible`.  On a reply
that is not a transport error and fails to parse, the pipeline runs the
verifiers on `None`, collects no atoms, and `EvaluatorAgent.adjudicate`
returns `eligible` — while the record's `parsing.success` is `false`. -/
theorem C1_counterexample_parse_failure_is_eligible :
    isApiError inpParseFail.raw = false ∧
    (evaluateSample cfg0 st0 inpParseFail "2024-01-01T00:00:00").1.parsingSuccess = false ∧
    (evaluateSample cfg0 st0 inpParseFail "2024-01-01T00:00:00").1.adjudication =
      some Adjudication.eligible := by
  refine ⟨by decide, by decide, by decide⟩

/-- Claim C1 (amended): the verdict is `ineligible` iff a critical failing
atom or a failing numeric-validity atom exists.  Parse failure alone
does not make a sample ineligible (see the counterexample); a
completeness rate below 80 with a successful parse still forces
`ineligible`, because each missing required field emits a
critical failing numeric-validity atom. -/
theorem C1_gating_verdict_amended :
    (∀ atoms : List EvidenceAtom,
        adjudicate atoms = Adjudication.ineligible ↔
          ((∃ a ∈ atoms, a.severity = Severity.critical ∧ a.pass = false) ∨
           (∃ a ∈ atoms, a.type = "numeric_validity" ∧ a.pass = false))) ∧
    (∀ (cfg : VerifierConfig) (st : EvalState) (inp : SampleInput) (m : FieldMap),
        inp.parsed = some m → inp.required ≠ [] →
        calcCompleteness inp.parsed inp.required < 80 →
        adjudicate ((runVerifiers cfg st inp).1) = Adjudication.ineligible) := by
  refine ⟨adjudicate_ineligible_iff, ?_⟩
  intro cfg st inp m hm hreq hcr
  rw [hm] at hcr
  obtain ⟨f, hf, hmiss⟩ := exists_missing_of_completeness_lt hreq hcr
  have hbmem : numericMissingAtom f ∈ numericVerify inp.parsed inp.required := by
    rw [hm]
    exact numericMissingAtom_mem hf hmiss
  obtain ⟨a, ha, ht, hp, -⟩ := exists_pipeline_of_numeric hbmem
  refine (adjudicate_ineligible_iff _).mpr (Or.inr ⟨a, ha, ?_, ?_⟩)
  · rw [ht]; rfl
  · rw [hp]; rfl

/-- Claim C1 (witness): an empty parsed map with the nineteen required fields
has completeness 0 < 80 and is adjudicated ineligible. -/
theorem C1_gating_verdict_amended_witness :
    adjudicate ((runVerifiers cfg0 st0 inpEmptyMap).1) = Adjudication.ineligible :=
  C1_gating_verdict_amended.2 cfg0 st0 inpEmptyMap [] rfl (by decide)
    (by norm_num [inpEmptyMap, calcCompleteness, lookupF, requiredFields])

/-! ## C2 — severity invariant -/

/-- Claim C2: every atom emitted by any verifier of the graph satisfies
`pass ⇒ severity = info` and `¬pass ⇒ severity ∈ {warning, critical}`. -/
theorem C2_severity_invariant (cfg : VerifierConfig) (st : EvalState) (inp : SampleInput) :
    ∀ a ∈ (runVerifiers cfg st inp).1,
      (a.pass = true → a.severity = Severity.info) ∧
      (a.pass = false → a.severity = Severity.warning ∨ a.severity = Severity.critical) :=
  fun _ ha => runVerifiers_sevOk ha

/-- Claim C2 (witness): the invariant, instantiated on the critical
rapid-descent atom of a concrete run. -/
theorem C2_severity_invariant_witness :
    (rapidDescentAtom.pass = true → rapidDescentAtom.severity = Severity.info) ∧
    (rapidDescentAtom.pass = false →
      rapidDescentAtom.severity = Severity.warning ∨
      rapidDescentAtom.severity = Severity.critical) :=
  C2_severity_invariant cfg0 st0 inpRapidDescent rapidDescentAtom (by decide)

end FlyEval

namespace FlyEval

/-! ## C3 — monotonicity of the deterministic rule adjudicator -/

/-- The Protocol-Schema grade the aligned rule fusion assigns to a
sample: numeric-validity evidence counts from the sample's atoms,
parsing success and completeness as `evaluate_sample` puts them into the
protocol result. -/
def pipelineProtocolGrade (cfg : VerifierConfig) (st : EvalState) (inp : SampleInput) : Grade :=
  determineGradeProtocol (countsOf ((runVerifiers cfg st inp).1) "numeric_validity")
    inp.parsed.isSome (calcCompleteness inp.parsed inp.required)

/-- The Safety-Constraint grade of the aligned rule fusion for a
sample's evidence. -/
def pipelineSafetyGrade (cfg : VerifierConfig) (st : EvalState) (inp : SampleInput) : Grade :=
  determineGradeSafety (countsOf ((runVerifiers cfg st inp).1) "safety_constraint")

/-- All-ones length-3 array value. -/
def arr3 : JsonVal := JsonVal.arr [JsonVal.num 1, JsonVal.num 1, JsonVal.num 1]

/-- An M3 field map with all nineteen fields present and a single
invalid array element (a JSON `null` in the middle of one array). -/
def mapC3 : FieldMap :=
  requiredFields.map fun f =>
    (f, if f = "Pressure Altitude (ft)" then
          JsonVal.arr [JsonVal.num 1, JsonVal.null, JsonVal.num 1]
        else arr3)

/-- The M3 sample built on `mapC3`. -/
def inpC3 : SampleInput :=
  { raw := "reply", parsed := some mapC3, taskType := "M3", required := requiredFields }

/-- Claim C3 (counterexample): `mapC3` parses, has one critical failing
numeric-validity atom among 57, failure rate 1/57 ≤ 0.05, so the
deterministic adjudicator grades Protocol-Schema `B` — not `C` or `D`
as the claim requires in the presence of a critical numeric-validity
atom. -/
theorem C3_counterexample_grade_B_with_critical_numeric :
    pipelineProtocolGrade cfg0 st0 inpC3 = Grade.B ∧
    (∃ a ∈ (runVerifiers cfg0 st0 inpC3).1,
       a.type = "numeric_validity" ∧ a.pass = false ∧ a.severity = Severity.critical) := by
  constructor
  · unfold pipelineProtocolGrade
    rw [counts_numeric_pipeline]
    have hc : countsOf (numericVerify inpC3.parsed inpC3.required) "numeric_validity" =
        { passCount := 56, failCount := 1 } := by decide
    have hfil : (requiredFields.filter fun f => (lookupF mapC3 f).isSome) = requiredFields := by
      decide
    have hcr : calcCompleteness inpC3.parsed inpC3.required = 100 := by
      show calcCompleteness (some mapC3) requiredFields = 100
      rw [calcCompleteness, hfil]
      norm_num [requiredFields]
    have hps : inpC3.parsed.isSome = true := rfl
    rw [hc, hcr, hps]
    norm_num [determineGradeProtocol, protocolMatches, protocolReq, ratioOk]
  · have hbmem : numericValueAtom ("Pressure Altitude (ft)" ++ "[" ++ toString 1 ++ "]")
        JsonVal.null ∈ numericVerify inpC3.parsed inpC3.required := by decide
    obtain ⟨a, ha, ht, hp, hs⟩ := exists_pipeline_of_numeric hbmem
    exact ⟨a, ha, by rw [ht]; rfl, by rw [hp]; rfl, by rw [hs]; rfl⟩

/-- Claim C3 (amended): a failed parse forces Protocol-Schema grade `D`; a
critical failing numeric-validity atom rules out grade `A` (but not `B`,
see the counterexample); a critical safety atom forces Safety grade `D`
(the safety checker emits atoms only on failure, so the failure rate is
1). -/
theorem C3_monotonicity_amended :
    (∀ (nc : TypeCounts) (cr : ℚ), determineGradeProtocol nc false cr = Grade.D) ∧
    (∀ (cfg : VerifierConfig) (st : EvalState) (inp : SampleInput) (a : EvidenceAtom),
        a ∈ (runVerifiers cfg st inp).1 → a.type = "numeric_validity" → a.pass = false →
        a.severity = Severity.critical → pipelineProtocolGrade cfg st inp ≠ Grade.A) ∧
    (∀ (cfg : VerifierConfig) (st : EvalState) (inp : SampleInput) (a : EvidenceAtom),
        a ∈ (runVerifiers cfg st inp).1 → a.type = "safety_constraint" →
        a.severity = Severity.critical → pipelineSafetyGrade cfg st inp = Grade.D) := by
  refine ⟨fun nc cr => determineGradeProtocol_parse_failed nc cr, ?_, ?_⟩
  · intro cfg st inp a ha ht hp _
    unfold pipelineProtocolGrade
    exact determineGradeProtocol_ne_A_of_fail (failCount_pos_of_mem ha ht hp) _ _
  · intro cfg st inp a ha ht _
    unfold pipelineSafetyGrade
    rw [counts_safety_pipeline]
    obtain ⟨b, ⟨htb, -, -⟩, hmem⟩ := runVerifiers_atom_cases ha
    rw [ht] at htb
    have hbsafe : b ∈ safetyVerify inp.parsed := by
      rcases hmem with h' | h' | h' | h' | h' | h'
      · rw [(numericVerify_profile h').1] at htb; exact absurd htb (by decide)
      · rw [(rangeVerify_profile h').1] at htb; exact absurd htb (by decide)
      · rw [jumpVerify_type_tag h'] at htb; exact absurd htb (by decide)
      · rw [(crossFieldVerify_profile h').1] at htb; exact absurd htb (by decide)
      · rw [(physicsVerify_profile h').1] at htb; exact absurd htb (by decide)
      · exact h'
    have hfailpos : 0 < (countsOf (safetyVerify inp.parsed) "safety_constraint").failCount :=
      failCount_pos_of_mem hbsafe (safetyVerify_profile hbsafe).1
        (safetyVerify_profile hbsafe).2.1
    have hpassz := safety_passCount_zero inp.parsed
    rcases hcc : countsOf (safetyVerify inp.parsed) "safety_constraint" with ⟨p, n⟩
    rw [hcc] at hfailpos hpassz
    dsimp at hfailpos hpassz
    subst hpassz
    exact determineGradeSafety_all_fail hfailpos

/-- Claim C3 (witness): the rapid-descent sample carries a critical safety
atom, and its Safety grade is `D`. -/
theorem C3_monotonicity_amended_witness :
    pipelineSafetyGrade cfg0 st0 inpRapidDescent = Grade.D :=
  C3_monotonicity_amended.2.2 cfg0 st0 inpRapidDescent rapidDescentAtom
    (by decide) (by decide) (by decide)

end FlyEval

namespace FlyEval

/-! ## C4 — grade→score protocol and overall mean -/

/-- Claim C4: the grade→score mapping is exactly `A=1.0, B=0.75, C=0.5,
D=0.0`, and the overall score of `calculate_scores` is the arithmetic
mean of the five dimension scores, for every grade vector. -/
theorem C4_grade_score_map_and_overall_mean :
    (gradeScore Grade.A = 1 ∧ gradeScore Grade.B = 75 / 100 ∧
     gradeScore Grade.C = 50 / 100 ∧ gradeScore Grade.D = 0) ∧
    (∀ (g1 g2 g3 g4 : Grade) (pq : ℚ),
      overallScore (dimensionScoreList g1 g2 g3 g4 pq) =
        (gradeScore g1 + gradeScore g2 + gradeScore g3 + gradeScore g4 + pq) / 5) := by
  refine ⟨⟨rfl, by norm_num [gradeScore], by norm_num [gradeScore], rfl⟩, ?_⟩
  intro g1 g2 g3 g4 pq
  simp only [overallScore, dimensionScoreList, List.sum_cons, List.sum_nil, List.length_cons,
    List.length_nil, List.isEmpty_cons]
  norm_num
  ring

/-! ## C5 — Protocol-Schema grades A/B and field completeness -/

/-- The eighteen-field map (everything except `Pressure Altitude (ft)`),
arrays of length 3. -/
def mapC5 : FieldMap :=
  (requiredFields.filter fun f => f ≠ "Pressure Altitude (ft)").map fun f => (f, arr3)

/-- The M3 sample built on `mapC5`. -/
def inpC5 : SampleInput :=
  { raw := "reply", parsed := some mapC5, taskType := "M3", required := requiredFields }

/-- All nineteen fields present as valid scalars. -/
def mapAllScalar : FieldMap := requiredFields.map fun f => (f, JsonVal.num 1)

/-- The S1 sample built on `mapAllScalar`. -/
def inpAllScalar : SampleInput :=
  { raw := "reply", parsed := some mapAllScalar, taskType := "S1",
    required := requiredFields }

/-- Claim C5 (counterexample): with `Pressure Altitude (ft)` missing, the
sample still matches Protocol-Schema grade `B`: the missing field's
single critical atom gives failure rate 1/55 ≤ 0.05, and the
completeness requirement compares the percentage 94.7 against the
fractional rate 1.0, so it is vacuously satisfied. -/
theorem C5_counterexample_grade_B_with_missing_field :
    pipelineProtocolGrade cfg0 st0 inpC5 = Grade.B ∧
    "Pressure Altitude (ft)" ∈ requiredFields ∧
    (lookupF mapC5 "Pressure Altitude (ft)").isSome = false := by
  refine ⟨?_, by decide, by decide⟩
  unfold pipelineProtocolGrade
  rw [counts_numeric_pipeline]
  have hc : countsOf (numericVerify inpC5.parsed inpC5.required) "numeric_validity" =
      { passCount := 54, failCount := 1 } := by decide
  have hlen : (requiredFields.filter fun f => (lookupF mapC5 f).isSome).length = 18 := by
    decide
  have hreqlen : requiredFields.length = 19 := by decide
  have hcr : calcCompleteness inpC5.parsed inpC5.required = 1800 / 19 := by
    show calcCompleteness (some mapC5) requiredFields = 1800 / 19
    rw [calcCompleteness, hlen, hreqlen]
    norm_num
  have hps : inpC5.parsed.isSome = true := rfl
  rw [hc, hcr, hps]
  norm_num [determineGradeProtocol, protocolMatches, protocolReq, ratioOk]

/-- Claim C5 (amended): grade `A` does require a successful parse and all
nineteen fields present (rate 0 forces a zero numeric failure count,
and a missing field always contributes a failing numeric atom); grade
`B` does not (see the counterexample), because the source compares the
percentage-valued `completeness_rate` against the rubric's fractional
ladder `{1.0, 1.0, 0.9, 0.8}`. -/
theorem C5_grade_A_requires_all_fields (cfg : VerifierConfig) (st : EvalState)
    (inp : SampleInput) (hA : pipelineProtocolGrade cfg st inp = Grade.A) :
    ∃ m, inp.parsed = some m ∧ ∀ f ∈ inp.required, (lookupF m f).isSome = true := by
  unfold pipelineProtocolGrade at hA
  have hm := (determineGradeProtocol_eq_A_iff _ _ _).mp hA
  unfold protocolMatches protocolReq at hm
  dsimp only at hm
  simp only [Bool.and_eq_true, beq_iff_eq] at hm
  obtain ⟨⟨hratio, hparse⟩, -⟩ := hm
  have hfz := failCount_eq_zero_of_ratioOk_zero hratio
  rw [counts_numeric_pipeline] at hfz
  obtain ⟨m, hmm⟩ := Option.isSome_iff_exists.mp hparse.symm
  refine ⟨m, hmm, ?_⟩
  intro f hf
  by_contra hmiss
  have hmiss' : (lookupF m f).isSome = false := by
    cases hx : (lookupF m f).isSome
    · rfl
    · exact absurd hx hmiss
  have hpos : 0 < (countsOf (numericVerify inp.parsed inp.required) "numeric_validity").failCount := by
    rw [hmm]
    exact numericVerify_failCount_pos hf hmiss'
  omega

/-- Claim C5 (witness): the all-scalar sample is graded `A`, and indeed every
required field is present. -/
theorem C5_grade_A_requires_all_fields_witness :
    ∃ m, inpAllScalar.parsed = some m ∧
      ∀ f ∈ inpAllScalar.required, (lookupF m f).isSome = true := by
  refine C5_grade_A_requires_all_fields cfg0 st0 inpAllScalar ?_
  unfold pipelineProtocolGrade
  rw [counts_numeric_pipeline]
  have hc : countsOf (numericVerify inpAllScalar.parsed inpAllScalar.required)
      "numeric_validity" = { passCount := 19, failCount := 0 } := by decide
  have hfil : (requiredFields.filter fun f => (lookupF mapAllScalar f).isSome) =
      requiredFields := by decide
  have hcr : calcCompleteness inpAllScalar.parsed inpAllScalar.required = 100 := by
    show calcCompleteness (some mapAllScalar) requiredFields = 100
    rw [calcCompleteness, hfil]
    norm_num [requiredFields]
  have hps : inpAllScalar.parsed.isSome = true := rfl
  rw [hc, hcr, hps]
  norm_num [determineGradeProtocol, protocolMatches, protocolReq, ratioOk]

end FlyEval

namespace FlyEval

/-! ## C6 — MAE/RMSE scoring curves -/

/-- Claim C6: for every non-negative error value, the source's segmented
MAE→score and RMSE→score functions coincide with the contractual
piecewise-linear curves of the specification. -/
theorem C6_error_curves_match_spec (x : ℚ) (hx : 0 ≤ x) :
    maeToScore x = specMaeCurve x ∧ rmseToScore x = specRmseCurve x := by
  constructor
  · unfold maeToScore specMaeCurve linSeg
    split_ifs <;> first | rfl | ring
  · unfold rmseToScore specRmseCurve linSeg
    split_ifs <;> first | rfl | ring

/-- Claim C6 (witness): the curves agree at the concrete error value 3. -/
theorem C6_error_curves_match_spec_witness :
    maeToScore 3 = specMaeCurve 3 ∧ rmseToScore 3 = specRmseCurve 3 :=
  C6_error_curves_match_spec 3 (by norm_num)

/-! ## C7 — M3 jump-dynamics reporting -/

/-- Jump-threshold table with a single configured field. -/
def thrC7 : String → Option ℚ :=
  fun f => if f = "GPS Altitude (WGS84 ft)" then some 200 else none

/-- Claim C7 (counterexample): on the M3 array `[0, 300, 1000]` with threshold
200, `check_mutation` returns at the FIRST exceeding change and reports
300, not the maximum adjacent change 700; consequently the severity is
`warning` (300/200 = 1.5), although the maximum change over the whole
array is 700 > 2 × 200 and the claim therefore demands `critical`. -/
theorem C7_counterexample_first_not_max :
    checkMutation thrC7 [] "GPS Altitude (WGS84 ft)" (some (JsonVal.num 0))
        (JsonVal.arr [JsonVal.num 0, JsonVal.num 300, JsonVal.num 1000]) "M3" =
      (false, 300) ∧
    adjacentChanges false [JsonVal.num 0, JsonVal.num 300, JsonVal.num 1000] = [300, 700] ∧
    (adjacentChanges false [JsonVal.num 0, JsonVal.num 300, JsonVal.num 1000]).foldl max 0 =
      700 ∧
    (300 : ℚ) ≠ 700 ∧
    jumpFailSeverity 200 300 = Severity.warning ∧
    (2 : ℚ) * 200 < 700 := by
  refine ⟨?_, ?_, ?_, by norm_num, ?_, by norm_num⟩
  · norm_num [checkMutation, checkMutation.singleStep, m3MutLoop, stepChange, thrC7,
      Option.isNone, JsonVal.isNull, JsonVal.isEmptyStr, floatOf]
  · norm_num [adjacentChanges, stepChange, floatOf]
  · norm_num [adjacentChanges, stepChange, floatOf]
  · norm_num [jumpFailSeverity]

/-- Claim C7 (amended): provided a previous prediction exists (the source
returns valid immediately when it does not, even for M3), the M3 atom
fails iff some adjacent-step change exceeds the threshold; the reported
change is the FIRST exceeding change on failure and the maximum of the
examined changes on a pass; a failing atom is critical iff the REPORTED
change exceeds twice the threshold. -/
theorem C7_jump_m3_characterization (thr : String → Option ℚ) (af : List String)
    (field : String) (p : JsonVal) (xs : List JsonVal) (t : ℚ)
    (hthr : thr field = some t) (hp1 : p.isEmptyStr = false) (hlen : 1 < xs.length) :
    ((checkMutation thr af field (some p) (JsonVal.arr xs) "M3").1 = false ↔
      ∃ c ∈ adjacentChanges (af.contains field) xs, t < c) ∧
    (∀ c, (adjacentChanges (af.contains field) xs).find? (fun x => decide (t < x)) = some c →
      checkMutation thr af field (some p) (JsonVal.arr xs) "M3" = (false, c)) ∧
    ((checkMutation thr af field (some p) (JsonVal.arr xs) "M3").1 = true →
      (checkMutation thr af field (some p) (JsonVal.arr xs) "M3").2 =
        (adjacentChanges (af.contains field) xs).foldl max 0) ∧
    (∀ c : ℚ, 0 < t → (jumpFailSeverity t c = Severity.critical ↔ 2 * t < c)) := by
  have hr : checkMutation thr af field (some p) (JsonVal.arr xs) "M3" =
      m3MutLoop (af.contains field) t xs 0 := by
    unfold checkMutation
    rw [hthr]
    have h1 : ((some p : Option JsonVal).isNone || (JsonVal.arr xs).isNull) = false := rfl
    have h2 : (((some p : Option JsonVal).getD JsonVal.null).isEmptyStr ||
        (JsonVal.arr xs).isEmptyStr) = false := by
      show (p.isEmptyStr || false) = false
      rw [Bool.or_false, hp1]
    rw [h1, h2]
    simp only [Bool.false_eq_true, if_false]
    rw [if_pos hlen]
  rw [hr, m3MutLoop_spec]
  refine ⟨?_, ?_, ?_, ?_⟩
  · rcases hf : (adjacentChanges (af.contains field) xs).find? (fun x => decide (t < x))
        with _ | c0 <;> dsimp only
    · have hnone := hf
      simp only [List.find?_eq_none, decide_eq_true_eq] at hnone
      constructor
      · intro hx
        cases hx
      · intro hx
        obtain ⟨c, hc, hlt⟩ := hx
        exact absurd hlt (hnone c hc)
    · constructor
      · intro _
        exact ⟨c0, List.mem_of_find?_eq_some hf, by simpa using List.find?_some hf⟩
      · intro _
        rfl
  · intro c hc
    rw [hc]
  · rcases hf : (adjacentChanges (af.contains field) xs).find? (fun x => decide (t < x))
        with _ | c0 <;> dsimp only
    · intro _
      rfl
    · intro hx
      cases hx
  · intro c0 ht
    unfold jumpFailSeverity
    rw [if_pos ht]
    dsimp only
    by_cases hc : 0 < c0
    · rw [if_pos hc]
      by_cases h2 : 2 < c0 / t
      · rw [if_pos h2]
        exact iff_of_true rfl ((lt_div_iff ht).mp h2)
      · rw [if_neg h2]
        have hn : ¬(2 * t < c0) := fun hx => h2 ((lt_div_iff ht).mpr hx)
        split_ifs <;> exact iff_of_false (by simp) hn
    · rw [if_neg hc]
      push_neg at hc
      have hn : ¬(2 * t < c0) := by nlinarith
      rw [if_neg (by norm_num : ¬(2 : ℚ) < 0), if_neg (by norm_num : ¬(3 : ℚ) / 2 < 0)]
      exact iff_of_false (by simp) hn

end FlyEval

namespace FlyEval

/-- Claim C7 (witness): the characterization applied to the counterexample
array; the severity clause then identifies 300/200 as non-critical. -/
theorem C7_jump_m3_characterization_witness :
    jumpFailSeverity 200 300 = Severity.critical ↔ (2 : ℚ) * 200 < 300 :=
  (C7_jump_m3_characterization thrC7 [] "GPS Altitude (WGS84 ft)" (JsonVal.num 0)
    [JsonVal.num 0, JsonVal.num 300, JsonVal.num 1000] 200
    (by norm_num [thrC7]) (by decide) (by decide)).2.2.2 300 (by norm_num)

/-! ## C8 — transport-error short circuit -/

/-- A transport-error reply. -/
def inpApiError : SampleInput :=
  { raw := "API Error: Connection refused", parsed := none, taskType := "S1",
    required := requiredFields }

/-- Claim C8 (counterexample): the claim says the Record of a transport-error
reply carries exactly one synthetic evidence atom; the source returns a
record with an empty evidence pack (zero atoms) and an empty agent
output (no explicit verdict). -/
theorem C8_counterexample_no_synthetic_atom :
    isApiError inpApiError.raw = true ∧
    (evaluateSample cfg0 st0 inpApiError "t").1.atoms.length = 0 ∧
    (evaluateSample cfg0 st0 inpApiError "t").1.atoms.length ≠ 1 ∧
    (evaluateSample cfg0 st0 inpApiError "t").1.adjudication = none := by
  refine ⟨by decide, by decide, by decide, by decide⟩

/-- Claim C8 (amended): on a transport-error reply no verifiers run and the
emitted record has `parsing.success = false`, EMPTY evidence (no
synthetic atom), no completeness entry and no explicit verdict; the
evaluator state (counters, previous predictions) is untouched. -/
theorem C8_transport_error_record (cfg : VerifierConfig) (st : EvalState)
    (inp : SampleInput) (now : String) (h : isApiError inp.raw = true) :
    evaluateSample cfg st inp now =
      ({ parsingSuccess := false, completeness := none, atoms := [],
         adjudication := none, timestamp := now }, st) := by
  unfold evaluateSample
  rw [h]
  simp

/-- Claim C8 (witness): the amended statement at the concrete reply. -/
theorem C8_transport_error_record_witness :
    evaluateSample cfg0 st0 inpApiError "2024-01-01T00:00:00" =
      ({ parsingSuccess := false, completeness := none, atoms := [],
         adjudication := none, timestamp := "2024-01-01T00:00:00" }, st0) :=
  C8_transport_error_record cfg0 st0 inpApiError "2024-01-01T00:00:00" (by decide)

/-! ## C9 — reproducibility of repeated evaluation -/

/-- A one-field sample. -/
def inpOneField : SampleInput :=
  { raw := "prediction follows", parsed := some [("Latitude (WGS84 deg)", JsonVal.num 1)],
    taskType := "S1", required := ["Latitude (WGS84 deg)"] }

/-- Claim C9 (counterexample): evaluating the SAME sample twice in the same
evaluator produces different Records: the verifier id counters are
never reset, so the second run's evidence ids continue where the first
stopped, and the previous-prediction map committed by the first run
makes the jump checker emit an extra atom. -/
theorem C9_counterexample_rerun_differs :
    ((evaluateSample cfg0 st0 inpOneField "t").1.atoms.map (fun a => a.id) =
      ["EVID_NUMERIC_VALIDITY_0001", "EVID_RANGE_SANITY_0001"]) ∧
    ((evaluateSample cfg0 ((evaluateSample cfg0 st0 inpOneField "t").2) inpOneField
        "t").1.atoms.map (fun a => a.id) =
      ["EVID_NUMERIC_VALIDITY_0002", "EVID_RANGE_SANITY_0002", "EVID_JUMP_DYNAMICS_0001"]) ∧
    (evaluateSample cfg0 ((evaluateSample cfg0 st0 inpOneField "t").2) inpOneField "t").1 ≠
      (evaluateSample cfg0 st0 inpOneField "t").1 := by
  have h1 : ((evaluateSample cfg0 st0 inpOneField "t").1.atoms.map (fun a => a.id) =
      ["EVID_NUMERIC_VALIDITY_0001", "EVID_RANGE_SANITY_0001"]) := by decide
  have h2 : ((evaluateSample cfg0 ((evaluateSample cfg0 st0 inpOneField "t").2) inpOneField
      "t").1.atoms.map (fun a => a.id) =
      ["EVID_NUMERIC_VALIDITY_0002", "EVID_RANGE_SANITY_0002", "EVID_JUMP_DYNAMICS_0001"]) := by
    decide
  refine ⟨h1, h2, ?_⟩
  intro heq
  have hcongr := congrArg (fun r : RecordM => r.atoms.map fun a => a.id) heq
  dsimp only at hcongr
  rw [h1, h2] at hcongr
  exact absurd hcongr (by decide)

/-- Claim C9 (amended): the pipeline is deterministic — for a fixed evaluator
state the emitted evidence, verdict, parsing flag, completeness and
successor state do not depend on the clock — and two records of the
same state and inputs are identical exactly when their trace timestamps
coincide.  Identical Records for a rerun therefore require a fresh
evaluator state (counters, previous predictions) and an equal
timestamp. -/
theorem C9_determinism_up_to_timestamp (cfg : VerifierConfig) (st : EvalState)
    (inp : SampleInput) (now now' : String) :
    ((evaluateSample cfg st inp now).1.atoms = (evaluateSample cfg st inp now').1.atoms) ∧
    ((evaluateSample cfg st inp now).1.adjudication =
      (evaluateSample cfg st inp now').1.adjudication) ∧
    ((evaluateSample cfg st inp now).1.parsingSuccess =
      (evaluateSample cfg st inp now').1.parsingSuccess) ∧
    ((evaluateSample cfg st inp now).1.completeness =
      (evaluateSample cfg st inp now').1.completeness) ∧
    ((evaluateSample cfg st inp now).2 = (evaluateSample cfg st inp now').2) ∧
    ((evaluateSample cfg st inp now).1 = (evaluateSample cfg st inp now').1 ↔ now = now') := by
  unfold evaluateSample
  split_ifs with h <;> simp [RecordM.mk.injEq]

/-! ## C10 — Python booleans pass the numeric-validity check -/

/-- Claim C10: `is_valid_numeric_value` accepts Python booleans
(`float(True) = 1.0`, a finite real), and a present scalar boolean field
receives a single passing info numeric-validity atom. -/
theorem C10_bool_values_pass_numeric_validity :
    (∀ b : Bool, isValidNumericValue (JsonVal.bool b) = true) ∧
    (∀ (f : String) (b : Bool),
      numericFieldAtoms f (some (JsonVal.bool b)) =
        [{ id := "", type := "numeric_validity", field := some f, pass := true,
           severity := Severity.info, scope := Scope.field,
           message := "Field " ++ f ++ " has valid numeric value" }]) := by
  constructor
  · intro b
    cases b <;> rfl
  · intro f b
    cases b <;> rfl

end FlyEval
